import Mathlib

/-!
Verification of the azure-digital-twin-cdf-sync handlers.

The two Azure functions (`Functions/CDF2ADT/CDF2ADTSync/handler.py` and
`Functions/ADT2CDF/ADT2CDFSync/handler.py`) are embedded shallowly:

* Python strings are modelled as `List Char` (`Str`);
* Python dicts are modelled as association lists with unique keys, with
  insertion-order iteration, in-place update on existing keys and append on
  fresh keys, exactly as CPython dicts behave;
* the external stores (CDF and ADT) are modelled as explicit record states
  threaded through the handler functions; network reads that the code
  performs against them become lookups into those states, and external query
  services are passed in as explicit query-result arguments;
* Python control flow that can raise an unhandled exception (attribute access
  on `None`, missing mandatory keys) is modelled with `Option`, `none`
  standing for the propagated exception.
-/

set_option maxHeartbeats 1000000

namespace CdfSync

/-! # Definitions -/

section Defs

variable {β : Type}

/-- Python strings, modelled as lists of characters. -/
abbrev Str := List Char

/-- Python str.replace for a single-character pattern: every occurrence of the
character c is replaced by rep, left to right. -/
def replace1 (c : Char) (rep : Str) : Str → Str
  | [] => []
  | x :: xs => if x = c then rep ++ replace1 c rep xs else x :: replace1 c rep xs

/-- Fuel-driven scanner behind pyReplace; the fuel bounds the number of
scanning steps and is set to the string length, which suffices because every
step consumes at least one character. -/
def pyReplaceAux (pat rep : Str) : Nat → Str → Str
  | _, [] => []
  | 0, s => s
  | fuel + 1, c :: cs =>
      if pat ≠ [] ∧ pat.isPrefixOf (c :: cs) then
        rep ++ pyReplaceAux pat rep fuel (List.drop pat.length (c :: cs))
      else
        c :: pyReplaceAux pat rep fuel cs

/-- Python str.replace for an arbitrary non-empty pattern: non-overlapping
occurrences are replaced left to right (identity for an empty pattern). -/
def pyReplace (pat rep : Str) (s : Str) : Str :=
  pyReplaceAux pat rep s.length s

/-- Python str.split on a single separator character. -/
def pySplit (c : Char) : Str → List Str
  | [] => [[]]
  | x :: xs =>
      match pySplit c xs with
      | [] => [[]]
      | h :: t => if x = c then [] :: h :: t else (x :: h) :: t

/-- Python dict lookup d[k] / d.get(k): first entry with the given key. -/
def lookupKV : List (Str × β) → Str → Option β
  | [], _ => none
  | p :: ps, k => if p.1 = k then some p.2 else lookupKV ps k

/-- Python k in d. -/
def containsKV (m : List (Str × β)) (k : Str) : Bool :=
  (lookupKV m k).isSome

/-- Python d[k] = v: update in place when the key exists, append otherwise. -/
def insertKV (m : List (Str × β)) (k : Str) (v : β) : List (Str × β) :=
  if containsKV m k then m.map (fun p => if p.1 = k then (k, v) else p)
  else m ++ [(k, v)]

/-- Python del d[k]. -/
def eraseKV (m : List (Str × β)) (k : Str) : List (Str × β) :=
  m.filter (fun p => p.1 ≠ k)

/-- Number of entries carrying the given key. -/
def countKV (m : List (Str × β)) (k : Str) : Nat :=
  (m.filter (fun p => p.1 = k)).length

/-- The invariant that a list of pairs really represents a dict. -/
def NodupKeys (m : List (Str × β)) : Prop :=
  (m.map Prod.fst).Nodup

/-- Key translation shared by both convert_metadata implementations:
space to '_', '.' to '^', '$' to '#'. -/
def convert_metadata_key (k : Str) : Str :=
  replace1 '$' "#".data (replace1 '.' "^".data (replace1 ' ' "_".data k))

namespace CDF2ADT

/-- CDF2ADTSync/handler.py convert_ext_id: CDF external id to ADT id,
replacing ':' by '*', space by '_', '&' by "AND"; a falsy id is returned
unchanged. -/
def convert_ext_id (external_id : Str) : Str :=
  if external_id = [] then external_id
  else replace1 '&' "AND".data (replace1 ' ' "_".data (replace1 ':' "*".data external_id))

/-- CDF2ADTSync/handler.py convert_metadata: translate every metadata key,
keeping values; later colliding keys overwrite earlier ones as in a Python
dict comprehension loop. -/
def convert_metadata (metadata : List (Str × Str)) : List (Str × Str) :=
  metadata.foldl (fun acc p => insertKV acc (convert_metadata_key p.1) p.2) []

end CDF2ADT

namespace ADT2CDF

/-- ADT2CDFSync/handler.py MetadataConversion: per converted key, the CDF
value and the original CDF key. -/
structure MetadataConversion where
  value : Str
  key : Str
deriving DecidableEq, Repr

/-- ADT2CDFSync/handler.py convert_metadata: map each translated key to the
original value and original key, later colliding keys overwriting earlier
ones. -/
def convert_metadata (metadata : List (Str × Str)) : List (Str × MetadataConversion) :=
  metadata.foldl (fun acc p => insertKV acc (convert_metadata_key p.1) ⟨p.2, p.1⟩) []

end ADT2CDF

namespace CDF2ADT

/-- CDF2ADTSync/handler.py get_last_exec_TS: timestamp of the first entry for
the given root asset external id, none when absent. -/
def get_last_exec_TS (last_executions : List (Str × Nat)) (ext_id : Str) : Option Nat :=
  lookupKV last_executions ext_id

/-- CDF2ADTSync/handler.py set_last_exec_TS: update every entry whose root id
matches in place, append a new entry when none matched; returns the document
uploaded back to the blob store. -/
def set_last_exec_TS (last_executions : List (Str × Nat)) (ext_id : Str) (ts : Nat) :
    List (Str × Nat) :=
  let updated := last_executions.map (fun x => if x.1 = ext_id then (x.1, ts) else x)
  if last_executions.any (fun x => x.1 = ext_id) then updated
  else updated ++ [(ext_id, ts)]

/-- World state threaded through the CDF2ADT bulk pass.  The twin graph,
mutated only by the six phase functions, is an abstract state sigma; the
wall clock is a Nat that the phase functions may advance; the checkpoint
document and the log of blob uploads model the checkpoint store. -/
structure SyncWorld (σ : Type) where
  time : Nat
  twins : σ
  last_executions : List (Str × Nat)
  blob_writes : List (List (Str × Nat))

/-- CDF2ADTSync/handler.py handle: abort when the root asset is missing in
CDF; read the checkpoint; abort when a checkpoint exists but the root twin is
absent; sample date_now before running any mutation phase; run the
first-sync insert phases when no checkpoint exists, otherwise the
update/delete phases; finally write the checkpoint once, with date_now.
The six phase functions act on the wall clock and the twin graph only
(the real phases never touch the checkpoint blob). -/
def handle (σ : Type)
    (rootExists twinExists : Bool)
    (insert_assets insert_asset_to_asset_relationships insert_timeseries
     update_assets update_asset_to_asset_relationships update_timeseries
     delete_assets delete_asset_to_asset_relationships delete_timeseries :
       Nat × σ → Nat × σ)
    (root_ext_id : Str) (w : SyncWorld σ) : SyncWorld σ :=
  if ¬ rootExists then w
  else
    let sync_ts := get_last_exec_TS w.last_executions root_ext_id
    if sync_ts.isSome ∧ twinExists = false then w
    else
      let date_now := w.time
      let s1 :=
        if sync_ts.isNone then
          insert_timeseries (insert_asset_to_asset_relationships (insert_assets
            (w.time, w.twins)))
        else
          delete_timeseries (delete_asset_to_asset_relationships (delete_assets
            (update_timeseries (update_asset_to_asset_relationships (update_assets
              (w.time, w.twins))))))
      let doc := set_last_exec_TS w.last_executions root_ext_id date_now
      { time := s1.1, twins := s1.2, last_executions := doc,
        blob_writes := w.blob_writes ++ [doc] }

end CDF2ADT

/-- A concrete phase function for witnesses: the twin graph is a counter and
each phase advances the clock and the counter by one. -/
def tick : Nat × Nat → Nat × Nat := fun p => (p.1 + 1, p.2 + 1)

namespace CDF2ADT

/-- CDF2ADTSync/handler.py SQL_IN_BATCH_SIZE. -/
def SQL_IN_BATCH_SIZE : Nat := 100

/-- The batches built by the Python comprehension
[predicates[i:i+n] for i in range(0, len(predicates), n)] with n the batch
size: range(0, L, n) has (L + n - 1) / n elements 0, n, 2n, ... and the
slice predicates[i:i+n] is drop i followed by take n. -/
def sql_in_batches (predicates : List Str) : List (List Str) :=
  (List.range' 0 ((predicates.length + SQL_IN_BATCH_SIZE - 1) / SQL_IN_BATCH_SIZE)
      SQL_IN_BATCH_SIZE).map
    (fun i => (predicates.drop i).take SQL_IN_BATCH_SIZE)

/-- CDF2ADTSync/handler.py query_adt_batches.  The external twin-store query
is modelled by its IN-clause semantics: substituting a batch of ids for the
placeholder returns the store rows whose key lies in that batch.  Rows are
key-payload pairs; per batch the results are appended to the accumulator as
Python list.extend does. -/
def query_adt_batches (store : List (Str × Str)) (predicates : List Str) :
    List (Str × Str) :=
  (sql_in_batches predicates).foldl
    (fun res_adt pred_batch => res_adt ++ store.filter (fun r => r.1 ∈ pred_batch)) []

/-- The hypothetical single unchunked query of the claim, over the same
store semantics: all rows whose key lies in the full predicate list. -/
def query_unchunked (store : List (Str × Str)) (predicates : List Str) :
    List (Str × Str) :=
  store.filter (fun r => r.1 ∈ predicates)

end CDF2ADT

namespace ADT2CDF

/-- A CDF asset as far as the handlers read and write it. -/
structure AssetRec where
  internId : Nat := 0
  name : Option Str := none
  description : Option Str := none
  metadata : List (Str × Str) := []
  parentExternalId : Option Str := none
deriving DecidableEq, Repr

/-- A CDF time series as far as the handlers read and write it. -/
structure TsRec where
  internId : Nat := 0
  name : Option Str := none
  description : Option Str := none
  metadata : List (Str × Str) := []
  assetId : Option Nat := none
  isString : Bool := false
deriving DecidableEq, Repr

/-- The latest datapoint of a time series. -/
structure Datapoint where
  value : Str
  timestamp : Nat
deriving DecidableEq, Repr

/-- A CDF relationship as created by the relatesTo branch. -/
structure CdfRel where
  sourceExternalId : Str
  targetExternalId : Str
  labels : List Str
deriving DecidableEq, Repr

/-- The CDF store: assets, time series and their latest datapoints keyed by
external id, relationships keyed by external id, and label definitions. -/
structure CDFState where
  assets : List (Str × AssetRec) := []
  timeSeries : List (Str × TsRec) := []
  datapoints : List (Str × Datapoint) := []
  relationships : List (Str × CdfRel) := []
  labels : List Str := []
deriving DecidableEq, Repr

/-- The cloud-event body fields the asset/timeseries create handlers read.
The tags block is always present on twin payloads; tagsValues is some when
the key "values" is present in it. -/
structure EventBody where
  externalId : Option Str := none
  displayName : Option Str := none
  dtId : Option Str := none
  description : Option Str := none
  tagsValues : Option (List (Str × Str)) := none
  latestValue : Option Str := none
  timestamp : Option Str := none
deriving DecidableEq, Repr

/-- ADT2CDFSync/handler.py has_asset_in_CDF_by_external_id. -/
def has_asset_in_CDF_by_external_id (s : CDFState) (adt_id : Str) : Bool :=
  containsKV s.assets adt_id

/-- ADT2CDFSync/handler.py has_timeseries_in_CDF_by_external_id. -/
def has_timeseries_in_CDF_by_external_id (s : CDFState) (adt_id : Str) : Bool :=
  containsKV s.timeSeries adt_id

/-- ADT2CDFSync/handler.py create_asset: no-op returning False when an asset
with the external id exists, otherwise create it under the configured root
with name from displayName (falling back to the twin id), description and
metadata from the tags block. -/
def create_asset (ROOT_EXTERNAL_ID : Str) (s : CDFState) (adt_id : Str)
    (event_body : EventBody) : Bool × CDFState :=
  if ¬ has_asset_in_CDF_by_external_id s adt_id then
    let base : AssetRec := { parentExternalId := some ROOT_EXTERNAL_ID }
    let a1 := match event_body.displayName with
      | some n => { base with name := some n }
      | none => { base with name := event_body.dtId }
    let a2 := match event_body.description with
      | some d => { a1 with description := some d }
      | none => a1
    let a3 := match event_body.tagsValues with
      | some vs => { a2 with metadata := vs }
      | none => a2
    (true, { s with assets := s.assets ++ [(adt_id, a3)] })
  else
    (false, s)

/-- ADT2CDFSync/handler.py delete_asset: delete when present, warn when
absent, return True either way. -/
def delete_asset (s : CDFState) (adt_id : Str) : Bool × CDFState :=
  if has_asset_in_CDF_by_external_id s adt_id then
    (true, { s with assets := eraseKV s.assets adt_id })
  else
    (true, s)

/-- ADT2CDFSync/handler.py check_and_insert_datapoint: insert the value when
it is newer than the stored latest datapoint; a numeric value is rejected on
a string series; a string value on a fresh series forces recreation of the
series with the string flag, and is rejected on a numeric series that
already has data.  A missing series record makes Python crash on attribute
access, modelled as none. -/
def check_and_insert_datapoint (isNumeric : Str → Bool) (parseTs : Str → Nat)
    (s : CDFState) (adt_id : Str) (latest_value : Str) (timestamp_str : Str) :
    Option (Bool × CDFState) :=
  let timestamp := parseTs timestamp_str
  let datapoint := lookupKV s.datapoints adt_id
  let fresh : Bool := match datapoint with
    | none => true
    | some d => decide (d.timestamp < timestamp)
  if fresh then
    match lookupKV s.timeSeries adt_id with
    | none => none
    | some ts =>
        if isNumeric latest_value then
          if ts.isString then some (false, s)
          else some (true,
            { s with datapoints := insertKV s.datapoints adt_id ⟨latest_value, timestamp⟩ })
        else
          match datapoint with
          | none =>
              let ts' := { ts with isString := true }
              let s' := { s with
                timeSeries := eraseKV s.timeSeries adt_id ++ [(adt_id, ts')] }
              some (true,
                { s' with datapoints := insertKV s'.datapoints adt_id ⟨latest_value, timestamp⟩ })
          | some _ =>
              if ¬ ts.isString then some (false, s)
              else some (true,
                { s with datapoints := insertKV s.datapoints adt_id ⟨latest_value, timestamp⟩ })
  else
    some (false, s)

/-- ADT2CDFSync/handler.py create_timeseries: no-op returning False when a
series with the external id exists; otherwise create it linked to the root
asset (crashing when the root asset is absent) and seed the initial
datapoint when the body carries a truthy latestValue/timestamp pair. -/
def create_timeseries (ROOT_EXTERNAL_ID : Str) (isNumeric : Str → Bool)
    (parseTs : Str → Nat) (s : CDFState) (adt_id : Str) (event_body : EventBody) :
    Option (Bool × CDFState) :=
  if ¬ has_timeseries_in_CDF_by_external_id s adt_id then
    match lookupKV s.assets ROOT_EXTERNAL_ID with
    | none => none
    | some rootAsset =>
        let base : TsRec := { name := some adt_id, assetId := some rootAsset.internId }
        let t1 := match event_body.displayName with
          | some n => { base with name := some n }
          | none => { base with name := event_body.dtId }
        let t2 := match event_body.description with
          | some d => { t1 with description := some d }
          | none => t1
        let t3 := match event_body.tagsValues with
          | some vs => { t2 with metadata := vs }
          | none => t2
        let s1 := { s with timeSeries := s.timeSeries ++ [(adt_id, t3)] }
        match event_body.latestValue, event_body.timestamp with
        | some lv, some tstr =>
            if lv ≠ [] ∧ tstr ≠ [] then
              match check_and_insert_datapoint isNumeric parseTs s1 adt_id lv tstr with
              | none => none
              | some (_, s2) => some (true, s2)
            else some (true, s1)
        | _, _ => some (true, s1)
  else
    some (false, s)

/-- ADT2CDFSync/handler.py delete_timeseries: delete when present, warn when
absent, return True either way. -/
def delete_timeseries (s : CDFState) (adt_id : Str) : Bool × CDFState :=
  if has_timeseries_in_CDF_by_external_id s adt_id then
    (true, { s with timeSeries := eraseKV s.timeSeries adt_id })
  else
    (true, s)

/-- A resolved relationship endpoint, as produced by get_rel_endpoints. -/
structure Endpoint where
  externalId : Str
  internId : Nat
deriving DecidableEq, Repr

/-- The relationship fields of a cloud-event body. -/
structure RelBody where
  relationshipName : Str
  relationshipId : Str
  sourceId : Str
  targetId : Str
  labels : Option Str := none
deriving DecidableEq, Repr

/-- One row of an ADT twin-graph query result. -/
structure AdtRow where
  relationshipId : Str := []
  sourceId : Str := []
  targetId : Str := []
deriving DecidableEq, Repr

/-- ADT2CDFSync/handler.py create_relationship.  The two ADT queries for
other parent / other contains edges (excluding this relationship's own id)
are external calls whose results are passed in, as the code receives them
from the twin-graph client. -/
def create_relationship (s : CDFState) (event_body : RelBody)
    (rel_source rel_target : Endpoint)
    (other_parent_rels other_contain_rels : List AdtRow) : Option (Bool × CDFState) :=
  if event_body.relationshipName = "parent".data then
    if other_parent_rels ≠ [] then some (false, s)
    else
      match lookupKV s.assets rel_source.externalId with
      | none => none
      | some a =>
          if a.parentExternalId = some rel_target.externalId then some (true, s)
          else
            let a2 := { a with parentExternalId := some rel_target.externalId }
            some (true, { s with assets := insertKV s.assets rel_source.externalId a2 })
  else if event_body.relationshipName = "contains".data then
    if other_contain_rels ≠ [] then some (false, s)
    else
      match lookupKV s.timeSeries rel_target.externalId with
      | none => none
      | some ts =>
          if ts.assetId = some rel_source.internId then some (false, s)
          else
            let ts2 := { ts with assetId := some rel_source.internId }
            some (true, { s with timeSeries := insertKV s.timeSeries rel_target.externalId ts2 })
  else if event_body.relationshipName = "relatesTo".data then
    if containsKV s.relationships event_body.relationshipId then some (false, s)
    else
      let labels := match event_body.labels with
        | some ls => pySplit ',' ls
        | none => []
      if labels.all (fun l => s.labels.any (fun x => l.isPrefixOf x)) then
        some (true, { s with relationships := s.relationships
            ++ [(event_body.relationshipId,
                 ⟨rel_source.externalId, rel_target.externalId, labels⟩)] })
      else some (false, s)
  else some (false, s)

/-- The six recognized cloud-event type identifiers (CLOUD_EVENT_TYPES). -/
def CLOUD_EVENT_TYPES : List Str :=
  ["Microsoft.DigitalTwins.Twin.Create".data,
   "Microsoft.DigitalTwins.Twin.Update".data,
   "Microsoft.DigitalTwins.Twin.Delete".data,
   "Microsoft.DigitalTwins.Relationship.Create".data,
   "Microsoft.DigitalTwins.Relationship.Update".data,
   "Microsoft.DigitalTwins.Relationship.Delete".data]

/-- ADT_MODEL_IDS.ASSET. -/
def ADT_MODEL_ID_ASSET : Str := "dtmi:digitaltwins:cognite:cdf:Asset;1".data

/-- ADT_MODEL_IDS.TIMESERIES. -/
def ADT_MODEL_ID_TIMESERIES : Str := "dtmi:digitaltwins:cognite:cdf:TimeSeries;1".data

/-- Delivery metadata of one cloud event (a PropertiesArray entry); a none
field is a missing key, which raises KeyError in Python. -/
structure EventProps where
  cloudEventsType : Option Str := none
  cloudEventsSubject : Option Str := none
deriving DecidableEq, Repr

/-- A raw Event Hub event, as far as parse_event reads its decoded body:
bodyMetaModel stands for the JSON path $metadata.$model, bodyModelId for the
top-level modelId; none is a missing key (KeyError). -/
structure RawEvent where
  bodyMetaModel : Option Str := none
  bodyModelId : Option Str := none
deriving DecidableEq, Repr

/-- The normalized event representation.  The Python class only declares the
attributes; a field parse_event does not assign stays none, and reading it
later raises AttributeError. -/
structure EventRepresentation where
  type : Option Str := none
  resource : Option Str := none
  subject : Str := []
deriving DecidableEq, Repr

/-- ADT2CDFSync/handler.py parse_event: map the event-type identifier to one
of the six recognized cloud-event types (ValueError on anything else, caught
and logged, returning None), read the subject, and classify the resource:
relationship events directly, twin events by the model identifier read from
the metadata block (Create/Delete) or the modelId field (Update); a missing
key raises KeyError, caught and logged, returning None.  A twin event whose
model is neither the asset nor the timeseries model leaves resource
unassigned. -/
def parse_event (event : RawEvent) (event_properties : EventProps) :
    Option EventRepresentation :=
  match event_properties.cloudEventsType with
  | none => none
  | some t =>
      if ¬ t ∈ CLOUD_EVENT_TYPES then none
      else
        match event_properties.cloudEventsSubject with
        | none => none
        | some subj =>
            let parts := pySplit '.' t
            let ty : Option Str :=
              if 4 ≤ parts.length ∧ parts.getD 3 []
                  ∈ ["Create".data, "Update".data, "Delete".data]
              then some (parts.getD 3 []) else none
            if parts.getD 2 [] = "Twin".data then
              let model : Option (Option Str) :=
                if parts.getD 3 [] = "Create".data ∨ parts.getD 3 [] = "Delete".data then
                  match event.bodyMetaModel with
                  | none => none
                  | some m => some (some m)
                else if parts.getD 3 [] = "Update".data then
                  match event.bodyModelId with
                  | none => none
                  | some m => some (some m)
                else some none
              match model with
              | none => none
              | some m =>
                  let resource : Option Str :=
                    if m = some ADT_MODEL_ID_ASSET then some "asset".data
                    else if m = some ADT_MODEL_ID_TIMESERIES then some "timeseries".data
                    else none
                  some { type := ty, resource := resource, subject := subj }
            else if parts.getD 2 [] = "Relationship".data then
              some { type := ty, resource := some "relationship".data, subject := subj }
            else
              some { type := ty, subject := subj }

/-- Outcome of one invocation of handle: a normal return with the final
eventIndex and the per-event outcomes, an early return (the explicit return
statements inside handle), or an unhandled exception. -/
inductive HandleOutcome
  | finished (eventIndex : Nat) (results : List Bool)
  | earlyReturn (results : List Bool)
  | crash (results : List Bool)
deriving DecidableEq, Repr

/-- The body of handle's event loop.  Reading .type or .resource of a failed
parse (None) or of an unassigned attribute raises AttributeError, which
nothing catches: the whole batch dies (crash).  An assigned type outside
Create/Update/Delete triggers the explicit return (earlyReturn).  Otherwise
the event is dispatched to the handler family for its resource (the three
handler families are abstracted into the dispatch argument; an unknown
resource string only logs and counts as a False outcome). -/
def handle_loop (dispatch : EventRepresentation → Bool) :
    List (RawEvent × EventProps) → List Bool → HandleOutcome
  | [], acc => .finished acc.length acc
  | (e, p) :: rest, acc =>
      match parse_event e p with
      | none => .crash acc
      | some rep =>
          match rep.type with
          | none => .crash acc
          | some ty =>
              if ¬ ty ∈ ["Create".data, "Update".data, "Delete".data] then
                .earlyReturn acc
              else
                match rep.resource with
                | none => .crash acc
                | some res =>
                    let result :=
                      if res = "asset".data ∨ res = "relationship".data
                          ∨ res = "timeseries".data
                      then dispatch rep else false
                    handle_loop dispatch rest (acc ++ [result])

/-- ADT2CDFSync/handler.py handle: abort when the root asset is missing;
abort the batch when the event list and the metadata PropertiesArray have
different lengths (checked inside the loop, so only when there is at least
one event); otherwise process the events in delivery order. -/
def handle (dispatch : EventRepresentation → Bool) (rootExists : Bool)
    (events : List RawEvent) (propsArray : List EventProps) : HandleOutcome :=
  if ¬ rootExists then .earlyReturn []
  else if events = [] then .finished 0 []
  else if propsArray.length ≠ events.length then .earlyReturn []
  else handle_loop dispatch (events.zip propsArray) []

end ADT2CDF

/-- Sample CDF store for witnesses: a root asset and one time series. -/
def sampleCdfState : ADT2CDF.CDFState :=
  { assets := [("ROOT".data, {})], timeSeries := [("T0".data, {})] }

/-! ## The Diff/Patch engine

CDF2ADT.get_update_patches computes JSON patch operations for the twin by
comparing a CDF resource with its twin dictionary;
ADT2CDF.fetch_changes_to_CDF_record applies a twin-update patch sequence to
a CDF record in memory. -/
/-- Python truthiness of an optional string (None and the empty string are
falsy). -/
def truthy : Option Str → Bool
  | none => false
  | some s => s ≠ []

/-- Python str(n) for a natural number. -/
def natStr (n : Nat) : Str := Nat.toDigits 10 n

/-- One JSON patch operation.  Values are strings on the scalar paths; the
whole-map path /tags/values carries a map value, modelled in valueMap. -/
structure PatchOp where
  op : Str
  path : Str
  value : Str := []
  valueMap : List (Str × Str) := []
deriving DecidableEq, Repr

namespace CDF2ADT

/-- A CDF resource (Asset or TimeSeries) as the diff engine reads it: the
immutable external id and internal id, the mandatory name, the optional
description and the metadata map. -/
structure Resource where
  external_id : Str := []
  internId : Nat := 0
  name : Str := []
  description : Option Str := none
  metadata : List (Str × Str) := []
deriving DecidableEq, Repr

/-- The digital twin dictionary fields get_update_patches reads; a none
field is a missing key. -/
structure Twin where
  externalId : Option Str := none
  idStr : Option Str := none
  displayName : Option Str := none
  description : Option Str := none
  tagsValues : Option (List (Str × Str)) := none
deriving DecidableEq, Repr

/-- CDF2ADTSync/handler.py get_twin_dict, restricted to the fields the diff
engine compares: displayName from the name, externalId, id as a string,
description only when truthy, and the translated metadata under
tags.values. -/
def get_twin_dict (resource : Resource) : Twin :=
  { displayName := some resource.name,
    externalId := some resource.external_id,
    idStr := some (natStr resource.internId),
    description := if truthy resource.description then resource.description else none,
    tagsValues := some (convert_metadata resource.metadata) }

/-- Python dict equality: order-insensitive comparison of key-value maps. -/
def dictEq (m1 m2 : List (Str × Str)) : Bool :=
  m1.all (fun p => lookupKV m2 p.1 = some p.2) && m2.all (fun p => lookupKV m1 p.1 = some p.2)

/-- The add/replace op the metadata loop of get_update_patches emits for one
translated resource key, compared against the twin's tags.values map: add
when the key is new on the twin, replace when the value differs, nothing
when equal. -/
def mkAddOp (tv : List (Str × Str)) (p : Str × Str) : Option PatchOp :=
  match lookupKV tv p.1 with
  | none => some { op := "add".data, path := "/tags/values/".data ++ p.1, value := p.2 }
  | some v2 =>
      if p.2 ≠ v2 then
        some { op := "replace".data, path := "/tags/values/".data ++ p.1, value := p.2 }
      else none

/-- The remove op the metadata loop of get_update_patches emits for one twin
key: remove when the key is absent from the translated resource metadata. -/
def mkRemOp (meta : List (Str × Str)) (p : Str × Str) : Option PatchOp :=
  if containsKV meta p.1 then none
  else some { op := "remove".data, path := "/tags/values/".data ++ p.1 }

/-- CDF2ADTSync/handler.py get_update_patches: external/internal id are set
only when missing or empty (a mismatch only logs a warning and never yields
a patch op); name and description produce add/replace/remove ops; metadata
is compared key by key after translation, adds and replaces for keys of the
resource first, then removes for twin keys that disappeared. -/
def get_update_patches (resource : Resource) (digital_twin : Twin) : List PatchOp :=
  let pExt : List PatchOp :=
    match digital_twin.externalId with
    | none => [{ op := "add".data, path := "/externalId".data, value := resource.external_id }]
    | some e =>
        if e = [] then
          [{ op := "replace".data, path := "/externalId".data, value := resource.external_id }]
        else []
  let pId : List PatchOp :=
    match digital_twin.idStr with
    | none => [{ op := "add".data, path := "/id".data, value := natStr resource.internId }]
    | some i =>
        if i = [] then
          [{ op := "replace".data, path := "/id".data, value := natStr resource.internId }]
        else []
  let pName : List PatchOp :=
    match digital_twin.displayName with
    | none => [{ op := "add".data, path := "/displayName".data, value := resource.name }]
    | some n =>
        if resource.name ≠ n then
          [{ op := "replace".data, path := "/displayName".data, value := resource.name }]
        else []
  let pDesc : List PatchOp :=
    if ¬ truthy resource.description then
      match digital_twin.description with
      | some _ => [{ op := "remove".data, path := "/description".data }]
      | none => []
    else
      match digital_twin.description with
      | none => [{ op := "add".data, path := "/description".data,
                   value := resource.description.getD [] }]
      | some d =>
          if ¬ resource.description = some d then
            [{ op := "replace".data, path := "/description".data,
               value := resource.description.getD [] }]
          else []
  let meta := convert_metadata resource.metadata
  let tv := digital_twin.tagsValues.getD []
  let pMeta : List PatchOp :=
    if dictEq meta tv then [] else
      meta.filterMap (mkAddOp tv) ++ tv.filterMap (mkRemOp meta)
  pExt ++ pId ++ pName ++ pDesc ++ pMeta

end CDF2ADT

namespace ADT2CDF

/-- The fields of a CDF record that fetch_changes_to_CDF_record reads and
writes (the name is mandatory in CDF). -/
structure Rec where
  name : Str := []
  description : Option Str := none
  metadata : List (Str × Str) := []
deriving DecidableEq, Repr

/-- ADT2CDFSync/handler.py check_value_change_and_update_record: update the
value under the original CDF key when the translated key is known and the
value differs; add under the translated key when unknown. -/
def check_value_change_and_update_record (has_change : Bool) (record_to_update : Rec)
    (converted_metadata : List (Str × MetadataConversion))
    (metadata_key metadata_value : Str) : Bool × Rec :=
  match lookupKV converted_metadata metadata_key with
  | some conv =>
      if conv.value ≠ metadata_value then
        (true, { record_to_update with
          metadata := insertKV record_to_update.metadata conv.key metadata_value })
      else (has_change, record_to_update)
  | none =>
      (true, { record_to_update with
        metadata := insertKV record_to_update.metadata metadata_key metadata_value })

/-- One iteration of the patch loop of fetch_changes_to_CDF_record.  The
state is (has_change, record, error log); cdfHas abstracts the CDF lookup
has_asset_in_CDF_by_external_id; cm is the converted metadata computed once
from the record before the loop.  Note the externalId add branch logs its
inconsistency error when the id is NOT found (the condition in the source is
inverted relative to its own message). -/
def applyAction (cdfHas : Str → Bool) (cm : List (Str × MetadataConversion))
    (st : Bool × Rec × List Str) (action : PatchOp) : Bool × Rec × List Str :=
  let hc := st.1
  let r := st.2.1
  let errs := st.2.2
  if action.path = "/displayName".data then
    if action.op = "remove".data then st
    else if r.name ≠ action.value then (true, { r with name := action.value }, errs)
    else st
  else if action.path = "/description".data then
    if action.op = "remove".data then
      if truthy r.description then (true, { r with description := some [] }, errs) else st
    else if ¬ r.description = some action.value then
      (true, { r with description := some action.value }, errs)
    else st
  else if action.path = "/externalId".data then
    if action.op = "add".data then
      if ¬ cdfHas action.value then (hc, r, errs ++ ["externalId exists".data]) else st
    else (hc, r, errs ++ ["externalId immutable".data])
  else if action.path = "/id".data then
    if ¬ action.op = "add".data then (hc, r, errs ++ ["id immutable".data]) else st
  else if action.path = "/tags/values".data then
    if action.op = "add".data then
      if cm = [] then (true, { r with metadata := action.valueMap }, errs) else st
    else if action.op = "remove".data then
      if ¬ cm = [] then (true, { r with metadata := [] }, errs) else st
    else st
  else if ("/tags/values/".data).isPrefixOf action.path then
    let path := pyReplace "/tags/values/".data [] action.path
    if action.op = "replace".data ∨ action.op = "add".data then
      let res := check_value_change_and_update_record hc r cm path action.value
      (res.1, res.2, errs)
    else if action.op = "remove".data ∧ containsKV cm path then
      match lookupKV cm path with
      | some conv => (true, { r with metadata := eraseKV r.metadata conv.key }, errs)
      | none => st
    else st
  else st

/-- ADT2CDFSync/handler.py fetch_changes_to_CDF_record: translate the
record's metadata once, then interpret every patch op against the in-memory
record, returning the change flag and the updated record (and the error log
of the invalid-operation branches). -/
def fetch_changes_to_CDF_record (cdfHas : Str → Bool) (record_to_update : Rec)
    (patch : List PatchOp) : Bool × Rec × List Str :=
  let converted_metadata := convert_metadata record_to_update.metadata
  patch.foldl (applyAction cdfHas converted_metadata) (false, record_to_update, [])

end ADT2CDF

/-- The CDF record carrying the same node state as a diff-side resource. -/
def cdfRecordOf (a : CDF2ADT.Resource) : ADT2CDF.Rec :=
  { name := a.name, description := a.description, metadata := a.metadata }

/-- Description normalization: a falsy description (absent or empty) is
identified with the absent one. -/
def descNorm (d : Option Str) : Option Str :=
  if truthy d then d else none

/-- The A side of the C1 counterexample: description "d" and two metadata
keys that collide after alphabet translation. -/
def cexA : CDF2ADT.Resource :=
  { external_id := "X".data, internId := 1, name := "n".data,
    description := some "d".data,
    metadata := [("a b".data, "v".data), ("a_b".data, "v".data)] }

/-- The B side of the C1 counterexample: no description, no metadata. -/
def cexB : CDF2ADT.Resource :=
  { external_id := "X".data, internId := 1, name := "n".data,
    description := none, metadata := [] }

/-- Invariant formula for the record metadata while the apply engine runs the
add/replace ops of the diff: pre is the processed prefix of the translated
desired metadata; original entries keep their key, carrying the desired value
once their translated key has been processed, and processed fresh translated
keys are appended in order. -/
def mdAddsResult (mA pre : List (Str × Str)) : List (Str × Str) :=
  mA.map (fun p => (p.1, (lookupKV pre (convert_metadata_key p.1)).getD p.2))
    ++ pre.filter (fun p =>
        ¬ containsKV (mA.map (fun q => (convert_metadata_key q.1, q.2))) p.1)

/-- The description segment of get_update_patches, split out verbatim so the
patch list decomposes definitionally: dB is the resource description, td the
twin dictionary's description field. -/
def pDescOps (dB td : Option Str) : List PatchOp :=
  if ¬ truthy dB then
    match td with
    | some _ => [{ op := "remove".data, path := "/description".data }]
    | none => []
  else
    match td with
    | none => [{ op := "add".data, path := "/description".data, value := dB.getD [] }]
    | some d =>
        if ¬ dB = some d then
          [{ op := "replace".data, path := "/description".data, value := dB.getD [] }]
        else []

/-- The current-state side of the round-trip witness: truthy description and
two metadata keys that stay distinct after translation. -/
def rtA : CDF2ADT.Resource :=
  { external_id := "X".data, internId := 1, name := "n".data,
    description := some "d".data,
    metadata := [("a b".data, "v".data), ("c.d".data, "w".data)] }

/-- The desired-state side of the round-trip witness: no description, one
changed value, one dropped key and one new key. -/
def rtB : CDF2ADT.Resource :=
  { external_id := "X".data, internId := 1, name := "n2".data,
    description := none,
    metadata := [("a b".data, "v2".data), ("e$f".data, "z".data)] }

end Defs

/-! # Theorems -/

section Lemmas

variable {β : Type} {γ : Type}

@[simp] theorem lookupKV_nil (k : Str) : lookupKV ([] : List (Str × β)) k = none := rfl

@[simp] theorem lookupKV_cons (p : Str × β) (ps : List (Str × β)) (k : Str) :
    lookupKV (p :: ps) k = if p.1 = k then some p.2 else lookupKV ps k := rfl

theorem lookupKV_append (m m' : List (Str × β)) (k : Str) :
    lookupKV (m ++ m') k = (lookupKV m k).elim (lookupKV m' k) some := by
  induction m with
  | nil => simp
  | cons p ps ih =>
      by_cases h : p.1 = k <;> simp [h, ih]

theorem lookupKV_map_ne {k : Str} (v : β) (m : List (Str × β)) {q : Str} (hqk : q ≠ k) :
    lookupKV (m.map (fun p => if p.1 = k then (k, v) else p)) q = lookupKV m q := by
  induction m with
  | nil => simp
  | cons p ps ih =>
      by_cases hpk : p.1 = k
      · have h1 : ¬ k = q := fun h => hqk h.symm
        have h2 : ¬ p.1 = q := fun h => hqk (h.symm.trans hpk)
        simp [hpk, h1, h2, ih]
      · by_cases hpq : p.1 = q <;> simp [hpk, hpq, hqk, ih]

theorem lookupKV_insertKV (m : List (Str × β)) (k : Str) (v : β) (q : Str) :
    lookupKV (insertKV m k v) q = if q = k then some v else lookupKV m q := by
  unfold insertKV
  by_cases hc : containsKV m k = true
  · rw [if_pos hc]
    by_cases hqk : q = k
    · subst hqk
      simp only [if_true]
      induction m with
      | nil => simp [containsKV] at hc
      | cons p ps ih =>
          by_cases hpk : p.1 = q
          · simp [hpk]
          · have hps : containsKV ps q := by
              simpa [containsKV, hpk] using hc
            simp [hpk, ih hps]
    · simp [hqk, lookupKV_map_ne v m hqk]
  · rw [if_neg hc, lookupKV_append]
    by_cases hqk : q = k
    · subst hqk
      have hnone : lookupKV m q = none := by
        cases h : lookupKV m q with
        | none => rfl
        | some x => exact absurd (by simp [containsKV, h]) hc
      simp [hnone, lookupKV]
    · have hkq : ¬ k = q := fun h => hqk h.symm
      cases h : lookupKV m q <;> simp [h, lookupKV, hqk, hkq]

theorem lookupKV_eraseKV (m : List (Str × β)) (k q : Str) :
    lookupKV (eraseKV m k) q = if q = k then none else lookupKV m q := by
  induction m with
  | nil => simp [eraseKV]
  | cons p ps ih =>
      by_cases hpk : p.1 = k
      · have : eraseKV (p :: ps) k = eraseKV ps k := by
          simp [eraseKV, List.filter_cons, hpk]
        rw [this, ih]
        by_cases hqk : q = k
        · simp [hqk]
        · have h2 : ¬ p.1 = q := fun h => hqk (h.symm.trans hpk)
          simp [hqk, h2]
      · have : eraseKV (p :: ps) k = p :: eraseKV ps k := by
          simp [eraseKV, List.filter_cons, hpk]
        rw [this]
        by_cases hpq : p.1 = q
        · have hqk : ¬ q = k := fun h => hpk (hpq.symm ▸ h ▸ rfl)
          simp [hpq, hqk]
        · simp [hpq, ih]

theorem containsKV_iff (m : List (Str × β)) (k : Str) :
    containsKV m k = true ↔ ∃ v, lookupKV m k = some v := by
  simp [containsKV, Option.isSome_iff_exists]

theorem lookupKV_eq_none_iff (m : List (Str × β)) (k : Str) :
    lookupKV m k = none ↔ ∀ x ∈ m, ¬ x.1 = k := by
  induction m with
  | nil => simp
  | cons p ps ih =>
      constructor
      · intro h x hx
        by_cases hp : p.1 = k
        · rw [lookupKV_cons, if_pos hp] at h
          cases h
        · rw [lookupKV_cons, if_neg hp] at h
          rcases List.mem_cons.mp hx with heq | hmem
          · exact heq ▸ hp
          · exact ih.mp h x hmem
      · intro h
        have hp : ¬ p.1 = k := h p (List.mem_cons_self _ _)
        rw [lookupKV_cons, if_neg hp]
        exact ih.mpr (fun x hx => h x (List.mem_cons_of_mem _ hx))

theorem containsKV_eq_false_iff (m : List (Str × β)) (k : Str) :
    containsKV m k = false ↔ lookupKV m k = none := by
  cases h : lookupKV m k <;> simp [containsKV, h]

theorem countKV_append (m m' : List (Str × β)) (k : Str) :
    countKV (m ++ m') k = countKV m k + countKV m' k := by
  unfold countKV
  rw [List.filter_append, List.length_append]

theorem countKV_eq_zero_of_none {m : List (Str × β)} {k : Str}
    (h : lookupKV m k = none) : countKV m k = 0 := by
  have hall := (lookupKV_eq_none_iff m k).mp h
  unfold countKV
  rw [List.length_eq_zero, List.filter_eq_nil_iff]
  intro a ha
  simp [hall a ha]

theorem countKV_singleton_self (k : Str) (v : β) : countKV [(k, v)] k = 1 := by
  simp [countKV, List.filter_cons]

theorem countKV_eraseKV (m : List (Str × β)) (k : Str) :
    countKV (eraseKV m k) k = 0 :=
  countKV_eq_zero_of_none (by rw [lookupKV_eraseKV]; simp)

theorem containsKV_append_self (m : List (Str × β)) (k : Str) (v : β) :
    containsKV (m ++ [(k, v)]) k = true := by
  rw [containsKV, lookupKV_append]
  cases h : lookupKV m k <;> simp [h, lookupKV]

theorem containsKV_eraseKV_self (m : List (Str × β)) (k : Str) :
    containsKV (eraseKV m k) k = false := by
  rw [containsKV_eq_false_iff, lookupKV_eraseKV]
  simp

theorem any_key_iff (m : List (Str × β)) (k : Str) :
    (m.any fun x => x.1 = k) = true ↔ ∃ x ∈ m, x.1 = k := by
  induction m with
  | nil =>
      constructor
      · intro h; cases h
      · rintro ⟨x, hx, _⟩; cases hx
  | cons p ps ih =>
      constructor
      · intro h
        by_cases hp : p.1 = k
        · exact ⟨p, List.mem_cons_self _ _, hp⟩
        · rw [List.any_cons, decide_eq_false hp, Bool.false_or] at h
          rcases ih.mp h with ⟨x, hx, hx1⟩
          exact ⟨x, List.mem_cons_of_mem _ hx, hx1⟩
      · rintro ⟨x, hx, hx1⟩
        rcases List.mem_cons.mp hx with heq | hmem
        · rw [List.any_cons, decide_eq_true (heq ▸ hx1), Bool.true_or]
        · rw [List.any_cons, ih.mpr ⟨x, hmem, hx1⟩, Bool.or_true]

/-! ## Character-set translation

`CDF2ADT/handler.py` defines `convert_ext_id` (':' to '*', space to '_', '&'
to "AND") and both handlers define `convert_metadata`, whose key translation
replaces space by '_', '.' by '^' and '$' by '#'. -/
theorem mem_of_mem_replace1 {a c : Char} {rep l : Str} (h : a ∈ replace1 c rep l) :
    a ∈ rep ∨ a ∈ l := by
  induction l with
  | nil => simp [replace1] at h
  | cons x xs ih =>
      by_cases hx : x = c
      · simp only [replace1, if_pos hx, List.mem_append] at h
        rcases h with h | h
        · exact Or.inl h
        · rcases ih h with h' | h'
          · exact Or.inl h'
          · exact Or.inr (List.mem_cons_of_mem _ h')
      · simp only [replace1, if_neg hx, List.mem_cons] at h
        rcases h with h | h
        · exact Or.inr (h ▸ List.mem_cons_self _ _)
        · rcases ih h with h' | h'
          · exact Or.inl h'
          · exact Or.inr (List.mem_cons_of_mem _ h')

theorem not_mem_replace1_self {c : Char} {rep : Str} (hrep : c ∉ rep) (l : Str) :
    c ∉ replace1 c rep l := by
  induction l with
  | nil => simp [replace1]
  | cons x xs ih =>
      by_cases hx : x = c
      · simp only [replace1, if_pos hx, List.mem_append]
        rintro (h | h)
        · exact hrep h
        · exact ih h
      · simp only [replace1, if_neg hx, List.mem_cons]
        rintro (h | h)
        · exact hx h.symm
        · exact ih h

theorem replace1_of_not_mem {c : Char} {rep l : Str} (h : c ∉ l) :
    replace1 c rep l = l := by
  induction l with
  | nil => rfl
  | cons x xs ih =>
      have hx : ¬ x = c := fun he => h (he ▸ List.mem_cons_self _ _)
      simp only [replace1, if_neg hx]
      rw [ih (fun hm => h (List.mem_cons_of_mem _ hm))]

theorem convert_metadata_key_idem (k : Str) :
    convert_metadata_key (convert_metadata_key k) = convert_metadata_key k := by
  unfold convert_metadata_key
  set t := replace1 '$' "#".data (replace1 '.' "^".data (replace1 ' ' "_".data k)) with ht
  have hsp : ' ' ∉ t := by
    intro h
    rcases mem_of_mem_replace1 h with h' | h'
    · simp at h'
    · rcases mem_of_mem_replace1 h' with h'' | h''
      · simp at h''
      · exact not_mem_replace1_self (by simp) k h''
  have hdot : '.' ∉ t := by
    intro h
    rcases mem_of_mem_replace1 h with h' | h'
    · simp at h'
    · exact not_mem_replace1_self (by simp) _ h'
  have hdol : '$' ∉ t := not_mem_replace1_self (by simp) _
  rw [replace1_of_not_mem hsp, replace1_of_not_mem hdot, replace1_of_not_mem hdol]

namespace CDF2ADT

theorem convert_ext_id_idem (s : Str) :
    convert_ext_id (convert_ext_id s) = convert_ext_id s := by
  by_cases hs : s = []
  · simp [convert_ext_id, hs]
  · have hconv : convert_ext_id s
        = replace1 '&' "AND".data (replace1 ' ' "_".data (replace1 ':' "*".data s)) := by
      simp [convert_ext_id, hs]
    set t := replace1 '&' "AND".data (replace1 ' ' "_".data (replace1 ':' "*".data s)) with htdef
    have hcolon : ':' ∉ t := by
      intro h
      rcases mem_of_mem_replace1 h with h' | h'
      · simp at h'
      · rcases mem_of_mem_replace1 h' with h'' | h''
        · simp at h''
        · exact not_mem_replace1_self (by simp) s h''
    have hsp : ' ' ∉ t := by
      intro h
      rcases mem_of_mem_replace1 h with h' | h'
      · simp at h'
      · exact not_mem_replace1_self (by simp) _ h'
    have hamp : '&' ∉ t := not_mem_replace1_self (by simp) _
    rw [hconv]
    by_cases hT : t = []
    · simp [convert_ext_id, hT]
    · simp only [convert_ext_id, if_neg hT]
      rw [replace1_of_not_mem hcolon, replace1_of_not_mem hsp, replace1_of_not_mem hamp]

end CDF2ADT

/-- C8: the identifier translation convert_ext_id (':' to '*', space to '_',
'&' to "AND") and the metadata-key translation (space to '_', '.' to '^',
'$' to '#') are idempotent on every input string. -/
theorem C8_alphabet_translation_idempotent (s : Str) :
    CDF2ADT.convert_ext_id (CDF2ADT.convert_ext_id s) = CDF2ADT.convert_ext_id s ∧
    convert_metadata_key (convert_metadata_key s) = convert_metadata_key s :=
  ⟨CDF2ADT.convert_ext_id_idem s, convert_metadata_key_idem s⟩

namespace CDF2ADT

theorem set_last_exec_TS_map_id {runs : List (Str × Nat)} {ext_id : Str} {ts : Nat}
    (h : ∀ x ∈ runs, ¬ x.1 = ext_id) :
    runs.map (fun x => if x.1 = ext_id then (x.1, ts) else x) = runs := by
  induction runs with
  | nil => rfl
  | cons p ps ih =>
      have hp : ¬ p.1 = ext_id := h p (List.mem_cons_self _ _)
      simp only [List.map_cons, if_neg hp]
      rw [ih (fun x hx => h x (List.mem_cons_of_mem _ hx))]

theorem set_last_exec_TS_filter_map (runs : List (Str × Nat)) (ext_id : Str) (ts : Nat) :
    (runs.map (fun x => if x.1 = ext_id then (x.1, ts) else x)).filter
        (fun e => e.1 ≠ ext_id)
      = runs.filter (fun e => e.1 ≠ ext_id) := by
  induction runs with
  | nil => rfl
  | cons p ps ih =>
      simp only [ne_eq, decide_not] at ih ⊢
      by_cases hp : p.1 = ext_id
      · simp [List.filter_cons, hp, ih]
      · simp [List.filter_cons, hp, ih]

theorem set_last_exec_TS_lookup_map {runs : List (Str × Nat)} {ext_id : Str} {ts : Nat}
    (h : ∃ x ∈ runs, x.1 = ext_id) :
    lookupKV (runs.map (fun x => if x.1 = ext_id then (x.1, ts) else x)) ext_id = some ts := by
  induction runs with
  | nil => simp at h
  | cons p ps ih =>
      by_cases hp : p.1 = ext_id
      · simp [hp]
      · rcases h with ⟨x, hx, hx1⟩
        rcases List.mem_cons.mp hx with heq | hmem
        · exact absurd (heq ▸ hx1) hp
        · simp only [List.map_cons, if_neg hp, lookupKV_cons, if_neg hp]
          exact ih ⟨x, hmem, hx1⟩

end CDF2ADT

/-- C9: set_last_exec_TS is frame-preserving on the checkpoint document:
entries for other roots are written back unchanged (the filter on differing
root ids is untouched); the whole document either has exactly the matching
entries' timestamps updated in place, or gains one appended entry when no
entry matched; and afterwards the stored timestamp for the root is the one
just set. -/
theorem C9_checkpoint_store_frame (runs : List (Str × Nat)) (ext_id : Str) (ts : Nat) :
    (CDF2ADT.set_last_exec_TS runs ext_id ts).filter (fun e => e.1 ≠ ext_id)
        = runs.filter (fun e => e.1 ≠ ext_id) ∧
    CDF2ADT.set_last_exec_TS runs ext_id ts
        = (if runs.any (fun x => x.1 = ext_id)
           then runs.map (fun x => if x.1 = ext_id then (x.1, ts) else x)
           else runs ++ [(ext_id, ts)]) ∧
    CDF2ADT.get_last_exec_TS (CDF2ADT.set_last_exec_TS runs ext_id ts) ext_id = some ts := by
  by_cases hany : (runs.any fun x => x.1 = ext_id) = true
  · have hex : ∃ x ∈ runs, x.1 = ext_id := (any_key_iff runs ext_id).mp hany
    have hset : CDF2ADT.set_last_exec_TS runs ext_id ts
        = runs.map (fun x => if x.1 = ext_id then (x.1, ts) else x) := by
      unfold CDF2ADT.set_last_exec_TS
      rw [if_pos hany]
    refine ⟨?_, ?_, ?_⟩
    · rw [hset, CDF2ADT.set_last_exec_TS_filter_map]
    · rw [hset, if_pos hany]
    · rw [CDF2ADT.get_last_exec_TS, hset]
      exact CDF2ADT.set_last_exec_TS_lookup_map hex
  · have hall : ∀ x ∈ runs, ¬ x.1 = ext_id := by
      intro x hx hx1
      exact hany ((any_key_iff runs ext_id).mpr ⟨x, hx, hx1⟩)
    have hset : CDF2ADT.set_last_exec_TS runs ext_id ts = runs ++ [(ext_id, ts)] := by
      unfold CDF2ADT.set_last_exec_TS
      rw [if_neg hany, CDF2ADT.set_last_exec_TS_map_id hall]
    refine ⟨?_, ?_, ?_⟩
    · rw [hset, List.filter_append]
      simp [List.filter_cons]
    · rw [hset, if_neg hany]
    · rw [CDF2ADT.get_last_exec_TS, hset, lookupKV_append]
      have hnone : lookupKV runs ext_id = none := (lookupKV_eq_none_iff runs ext_id).mpr hall
      simp [hnone, lookupKV]

/-- C7: when the bulk pass runs to completion (the root asset exists and the
consistency guard passes), the checkpoint for the root is uploaded exactly
once, the uploaded document records for the root the wall-clock time sampled
at the start of the pass, before any twin-graph mutation, independently of
the end-of-pass clock, and the returned twin graph is the output of the full
phase pipeline. -/
theorem C7_checkpoint_written_once_with_start_time (σ : Type)
    (twinExists : Bool)
    (ia ir it ua ur ut da dr dt : Nat × σ → Nat × σ)
    (root_ext_id : Str) (w : CDF2ADT.SyncWorld σ)
    (hguard : ¬ ((CDF2ADT.get_last_exec_TS w.last_executions root_ext_id).isSome
                  ∧ twinExists = false)) :
    let w' := CDF2ADT.handle σ true twinExists ia ir it ua ur ut da dr dt root_ext_id w
    w'.blob_writes
        = w.blob_writes ++ [CDF2ADT.set_last_exec_TS w.last_executions root_ext_id w.time] ∧
    CDF2ADT.get_last_exec_TS w'.last_executions root_ext_id = some w.time ∧
    w'.twins = (if (CDF2ADT.get_last_exec_TS w.last_executions root_ext_id).isNone
                then it (ir (ia (w.time, w.twins)))
                else dt (dr (da (ut (ur (ua (w.time, w.twins))))))).2 := by
  intro w'
  have hw' : w' = { time := (if (CDF2ADT.get_last_exec_TS w.last_executions root_ext_id).isNone
                              then it (ir (ia (w.time, w.twins)))
                              else dt (dr (da (ut (ur (ua (w.time, w.twins))))))).1,
                    twins := (if (CDF2ADT.get_last_exec_TS w.last_executions root_ext_id).isNone
                              then it (ir (ia (w.time, w.twins)))
                              else dt (dr (da (ut (ur (ua (w.time, w.twins))))))).2,
                    last_executions :=
                      CDF2ADT.set_last_exec_TS w.last_executions root_ext_id w.time,
                    blob_writes := w.blob_writes
                      ++ [CDF2ADT.set_last_exec_TS w.last_executions root_ext_id w.time] } := by
    show CDF2ADT.handle σ true twinExists ia ir it ua ur ut da dr dt root_ext_id w = _
    unfold CDF2ADT.handle
    rw [if_neg (by simp), if_neg hguard]
  refine ⟨by rw [hw'], ?_, by rw [hw']⟩
  rw [hw']
  exact (C9_checkpoint_store_frame w.last_executions root_ext_id w.time).2.2

namespace CDF2ADT

theorem sql_in_batches_nil : sql_in_batches [] = [] := by
  simp [sql_in_batches, SQL_IN_BATCH_SIZE]

theorem sql_in_batches_cons (l : List Str) (hl : l ≠ []) :
    sql_in_batches l = l.take 100 :: sql_in_batches (l.drop 100) := by
  have hL : 1 ≤ l.length := List.length_pos.mpr hl
  have harith : (l.length + 100 - 1) / 100 = ((l.length - 100) + 100 - 1) / 100 + 1 := by
    have h1 : l.length + 100 - 1 = (l.length - 1) + 100 := by omega
    rw [h1, Nat.add_div_right _ (by norm_num)]
    by_cases hc : l.length ≤ 100
    · have h2 : l.length - 100 + 100 - 1 = 99 := by omega
      have h3 : (l.length - 1) / 100 = 0 := Nat.div_eq_of_lt (by omega)
      rw [h2, h3]
    · have h2 : l.length - 100 + 100 - 1 = l.length - 1 := by omega
      rw [h2]
  unfold sql_in_batches SQL_IN_BATCH_SIZE
  simp only [List.length_drop]
  rw [harith, List.range'_succ, List.map_cons, List.drop_zero]
  congr 1
  rw [show (0 + 100) = (100 + 0) by norm_num, ← List.map_add_range' 100 0, List.map_map]
  refine List.map_congr_left ?_
  intro i _
  show (l.drop (100 + i)).take 100 = ((l.drop 100).drop i).take 100
  rw [List.drop_drop]

theorem sql_in_batches_flatten (l : List Str) : (sql_in_batches l).flatten = l := by
  suffices h : ∀ (n : Nat) (l : List Str), l.length ≤ n → (sql_in_batches l).flatten = l from
    h l.length l le_rfl
  intro n
  induction n with
  | zero =>
      intro l hl
      have : l = [] := List.eq_nil_of_length_eq_zero (Nat.le_zero.mp hl)
      rw [this, sql_in_batches_nil]
      rfl
  | succ n ih =>
      intro l hl
      by_cases h : l = []
      · rw [h, sql_in_batches_nil]; rfl
      · rw [sql_in_batches_cons l h, List.flatten_cons,
          ih (l.drop 100) (by rw [List.length_drop]; omega)]
        exact List.take_append_drop 100 l

theorem query_adt_batches_eq_flatten (store : List (Str × Str)) (bs : List (List Str))
    (acc : List (Str × Str)) :
    bs.foldl (fun res_adt pred_batch =>
        res_adt ++ store.filter (fun r => r.1 ∈ pred_batch)) acc
      = acc ++ (bs.map (fun b => store.filter (fun r => r.1 ∈ b))).flatten := by
  induction bs generalizing acc with
  | nil => simp
  | cons b bs ih =>
      rw [List.foldl_cons, ih, List.map_cons, List.flatten_cons, List.append_assoc]

theorem query_adt_batches_multiset (store : List (Str × Str)) (l : List Str)
    (hnd : l.Nodup) :
    (↑(query_adt_batches store l) : Multiset (Str × Str)) = ↑(query_unchunked store l) := by
  suffices h : ∀ (n : Nat) (l : List Str), l.length ≤ n → l.Nodup →
      ((((sql_in_batches l).map (fun b => store.filter (fun r => r.1 ∈ b))).flatten :
          List (Str × Str)) : Multiset (Str × Str))
        = ↑(store.filter (fun r => r.1 ∈ l)) by
    rw [query_adt_batches, query_adt_batches_eq_flatten, List.nil_append, query_unchunked]
    exact h l.length l le_rfl hnd
  intro n
  induction n with
  | zero =>
      intro l hl _
      have hnil : l = [] := List.eq_nil_of_length_eq_zero (Nat.le_zero.mp hl)
      subst hnil
      rw [sql_in_batches_nil]
      have : store.filter (fun r => r.1 ∈ ([] : List Str)) = [] := by
        simp
      rw [this]
      rfl
  | succ n ih =>
      intro l hl hnd
      by_cases h : l = []
      · subst h
        rw [sql_in_batches_nil]
        have : store.filter (fun r => r.1 ∈ ([] : List Str)) = [] := by simp
        rw [this]
        rfl
      · rw [sql_in_batches_cons l h, List.map_cons, List.flatten_cons]
        have hnd' : (l.drop 100).Nodup := (List.drop_sublist 100 l).nodup hnd
        have ihl := ih (l.drop 100) (by rw [List.length_drop]; omega) hnd'
        rw [← Multiset.coe_add, ihl]
        have hdisj : (l.take 100).Disjoint (l.drop 100) := by
          refine List.disjoint_of_nodup_append ?_
          rw [List.take_append_drop]
          exact hnd
        have hcoe1 : (↑(store.filter (fun r => r.1 ∈ l.take 100)) : Multiset (Str × Str))
            = Multiset.filter (fun r => r.1 ∈ l.take 100) ↑store := by
          rw [Multiset.filter_coe]
        have hcoe2 : (↑(store.filter (fun r => r.1 ∈ l.drop 100)) : Multiset (Str × Str))
            = Multiset.filter (fun r => r.1 ∈ l.drop 100) ↑store := by
          rw [Multiset.filter_coe]
        have hcoe3 : (↑(store.filter (fun r => r.1 ∈ l)) : Multiset (Str × Str))
            = Multiset.filter (fun r => r.1 ∈ l) ↑store := by
          rw [Multiset.filter_coe]
        rw [hcoe1, hcoe2, hcoe3]
        rw [Multiset.filter_add_filter]
        have hand : Multiset.filter
            (fun r : Str × Str => r.1 ∈ l.take 100 ∧ r.1 ∈ l.drop 100) ↑store = 0 := by
          rw [Multiset.filter_eq_nil]
          rintro r _ ⟨h1, h2⟩
          exact hdisj h1 h2
        rw [hand, add_zero]
        refine Multiset.filter_congr ?_
        intro r _
        constructor
        · rintro (h1 | h1)
          · exact (List.take_append_drop 100 l) ▸ List.mem_append_left _ h1
          · exact (List.take_append_drop 100 l) ▸ List.mem_append_right _ h1
        · intro h1
          have := (List.take_append_drop 100 l) ▸ h1
          exact List.mem_append.mp this

end CDF2ADT

/-- C4 counterexample: with a duplicated predicate falling into two different
chunks (101 copies of the id "a"), the matching store row occurs twice in the
concatenated chunked result but only once in the unchunked result, so the
claim as stated (for every predicate list) fails. -/
theorem C4_query_adt_batches_duplicates_counterexample :
    ¬ ((↑(CDF2ADT.query_adt_batches [("a".data, "p".data)]
            (List.replicate 101 "a".data)) : Multiset (Str × Str))
        = ↑(CDF2ADT.query_unchunked [("a".data, "p".data)]
            (List.replicate 101 "a".data))) := by
  decide

/-- C4, amended: for a duplicate-free predicate list of length N and chunk
size K = 100, query_adt_batches issues exactly ceil(N/K) queries (zero when
N = 0), the chunks are consecutive slices of at most K ids whose
concatenation is the predicate list, and the concatenated result equals the
hypothetical unchunked query as a multiset. -/
theorem C4_query_adt_batches_chunking (store : List (Str × Str)) (predicates : List Str)
    (hnd : predicates.Nodup) :
    (CDF2ADT.sql_in_batches predicates).length
        = (predicates.length + CDF2ADT.SQL_IN_BATCH_SIZE - 1) / CDF2ADT.SQL_IN_BATCH_SIZE ∧
    (CDF2ADT.sql_in_batches predicates).flatten = predicates ∧
    (∀ b ∈ CDF2ADT.sql_in_batches predicates, b.length ≤ CDF2ADT.SQL_IN_BATCH_SIZE) ∧
    (↑(CDF2ADT.query_adt_batches store predicates) : Multiset (Str × Str))
        = ↑(CDF2ADT.query_unchunked store predicates) := by
  refine ⟨?_, CDF2ADT.sql_in_batches_flatten predicates, ?_,
    CDF2ADT.query_adt_batches_multiset store predicates hnd⟩
  · rw [CDF2ADT.sql_in_batches, List.length_map, List.length_range']
  · intro b hb
    rcases List.mem_map.mp hb with ⟨i, _, hib⟩
    rw [← hib]
    exact List.length_take_le _ _

/-- Witness for the amended C4 at a concrete duplicate-free list of 101 ids. -/
theorem C4_query_adt_batches_chunking_witness :
    ((List.range 101).map (fun i => (Nat.toDigits 10 i).reverse)).Nodup ∧
    ((↑(CDF2ADT.query_adt_batches [("7".data, "p".data)]
          ((List.range 101).map (fun i => (Nat.toDigits 10 i).reverse))) :
        Multiset (Str × Str))
      = ↑(CDF2ADT.query_unchunked [("7".data, "p".data)]
          ((List.range 101).map (fun i => (Nat.toDigits 10 i).reverse)))) :=
  ⟨by decide,
   (C4_query_adt_batches_chunking [("7".data, "p".data)]
      ((List.range 101).map (fun i => (Nat.toDigits 10 i).reverse)) (by decide)).2.2.2⟩

/-- Witness for C7 at a concrete first-sync world: the pass starts at time 5
and the uploaded checkpoint records 5, although the pass ends at time 8. -/
theorem C7_checkpoint_written_once_with_start_time_witness :
    ¬ ((CDF2ADT.get_last_exec_TS ([] : List (Str × Nat)) "R".data).isSome
        ∧ false = false) ∧
    (let w' := CDF2ADT.handle Nat true false
        tick tick tick tick tick tick tick tick tick "R".data ⟨5, 0, [], []⟩
     w'.blob_writes = [] ++ [CDF2ADT.set_last_exec_TS [] "R".data 5] ∧
     CDF2ADT.get_last_exec_TS w'.last_executions "R".data = some 5 ∧
     w'.twins = (if (CDF2ADT.get_last_exec_TS ([] : List (Str × Nat)) "R".data).isNone
                 then tick (tick (tick ((5 : Nat), (0 : Nat))))
                 else tick (tick (tick (tick (tick (tick ((5 : Nat), (0 : Nat)))))))).2) :=
  ⟨by decide,
   C7_checkpoint_written_once_with_start_time Nat false
     tick tick tick tick tick tick tick tick tick "R".data ⟨5, 0, [], []⟩ (by decide)⟩

namespace ADT2CDF

theorem check_and_insert_datapoint_timeSeries (isNumeric : Str → Bool)
    (parseTs : Str → Nat) (s : CDFState) (adt_id latest_value timestamp_str : Str)
    (hsome : containsKV s.timeSeries adt_id = true) :
    ∃ b s2, check_and_insert_datapoint isNumeric parseTs s adt_id latest_value timestamp_str
        = some (b, s2) ∧
      (s2.timeSeries = s.timeSeries ∨
       ∃ v, s2.timeSeries = eraseKV s.timeSeries adt_id ++ [(adt_id, v)]) := by
  rcases (containsKV_iff _ _).mp hsome with ⟨ts, hts⟩
  unfold check_and_insert_datapoint
  rw [hts]
  cases hdp : lookupKV s.datapoints adt_id with
  | none =>
      simp only [hdp, if_true]
      by_cases hn : isNumeric latest_value = true
      · rw [if_pos hn]
        by_cases hstr : ts.isString = true
        · rw [if_pos hstr]
          exact ⟨false, s, rfl, Or.inl rfl⟩
        · rw [if_neg hstr]
          exact ⟨true, { s with datapoints := insertKV s.datapoints adt_id (Datapoint.mk latest_value (parseTs timestamp_str)) }, rfl, Or.inl rfl⟩
      · rw [if_neg hn]
        exact ⟨true, { s with
            timeSeries := eraseKV s.timeSeries adt_id ++ [(adt_id, { ts with isString := true })],
            datapoints := insertKV s.datapoints adt_id (Datapoint.mk latest_value (parseTs timestamp_str)) },
          rfl, Or.inr ⟨{ ts with isString := true }, rfl⟩⟩
  | some d =>
      simp only [hdp]
      by_cases hfr : d.timestamp < parseTs timestamp_str
      · rw [if_pos (by simpa using hfr)]
        by_cases hn : isNumeric latest_value = true
        · rw [if_pos hn]
          by_cases hstr : ts.isString = true
          · rw [if_pos hstr]
            exact ⟨false, s, rfl, Or.inl rfl⟩
          · rw [if_neg hstr]
            exact ⟨true, { s with datapoints := insertKV s.datapoints adt_id (Datapoint.mk latest_value (parseTs timestamp_str)) }, rfl, Or.inl rfl⟩
        · rw [if_neg hn]
          by_cases hstr : ¬ ts.isString = true
          · rw [if_pos hstr]
            exact ⟨false, s, rfl, Or.inl rfl⟩
          · rw [if_neg hstr]
            exact ⟨true, { s with datapoints := insertKV s.datapoints adt_id (Datapoint.mk latest_value (parseTs timestamp_str)) }, rfl, Or.inl rfl⟩
      · rw [if_neg (by simpa using hfr)]
        exact ⟨false, s, rfl, Or.inl rfl⟩

theorem create_asset_absent_spec (ROOT_EXTERNAL_ID : Str) (s : CDFState) (adt_id : Str)
    (event_body : EventBody) (h : containsKV s.assets adt_id = false) :
    ∃ a, create_asset ROOT_EXTERNAL_ID s adt_id event_body
        = (true, { s with assets := s.assets ++ [(adt_id, a)] }) := by
  unfold create_asset
  rw [if_pos (by simp [has_asset_in_CDF_by_external_id, h])]
  exact ⟨_, rfl⟩

theorem create_asset_present_spec (ROOT_EXTERNAL_ID : Str) (s : CDFState) (adt_id : Str)
    (event_body : EventBody) (h : containsKV s.assets adt_id = true) :
    create_asset ROOT_EXTERNAL_ID s adt_id event_body = (false, s) := by
  unfold create_asset
  rw [if_neg (by simp [has_asset_in_CDF_by_external_id, h])]

theorem delete_asset_absent_spec (s : CDFState) (adt_id : Str)
    (h : containsKV s.assets adt_id = false) :
    delete_asset s adt_id = (true, s) := by
  unfold delete_asset
  rw [if_neg (by simp [has_asset_in_CDF_by_external_id, h])]

theorem delete_timeseries_absent_spec (s : CDFState) (adt_id : Str)
    (h : containsKV s.timeSeries adt_id = false) :
    delete_timeseries s adt_id = (true, s) := by
  unfold delete_timeseries
  rw [if_neg (by simp [has_timeseries_in_CDF_by_external_id, h])]

theorem create_timeseries_present_spec (ROOT_EXTERNAL_ID : Str) (isNumeric : Str → Bool)
    (parseTs : Str → Nat) (s : CDFState) (adt_id : Str) (event_body : EventBody)
    (h : containsKV s.timeSeries adt_id = true) :
    create_timeseries ROOT_EXTERNAL_ID isNumeric parseTs s adt_id event_body
      = some (false, s) := by
  unfold create_timeseries
  rw [if_neg (by simp [has_timeseries_in_CDF_by_external_id, h])]

theorem create_timeseries_absent_spec (ROOT_EXTERNAL_ID : Str) (isNumeric : Str → Bool)
    (parseTs : Str → Nat) (s : CDFState) (adt_id : Str) (event_body : EventBody)
    (h : containsKV s.timeSeries adt_id = false)
    (hroot : containsKV s.assets ROOT_EXTERNAL_ID = true) :
    ∃ s1, create_timeseries ROOT_EXTERNAL_ID isNumeric parseTs s adt_id event_body
        = some (true, s1) ∧
      countKV s1.timeSeries adt_id = 1 ∧
      containsKV s1.timeSeries adt_id = true := by
  rcases (containsKV_iff _ _).mp hroot with ⟨rootA, hrootA⟩
  have hnone : lookupKV s.timeSeries adt_id = none := (containsKV_eq_false_iff _ _).mp h
  have hcount : ∀ t : TsRec, countKV (s.timeSeries ++ [(adt_id, t)]) adt_id = 1 := by
    intro t
    rw [countKV_append, countKV_eq_zero_of_none hnone, countKV_singleton_self]
  unfold create_timeseries
  rw [if_pos (by simp [has_timeseries_in_CDF_by_external_id, h])]
  simp only [hrootA]
  cases hlv : event_body.latestValue with
  | none =>
      cases hts2 : event_body.timestamp with
      | none =>
          simp only [hlv, hts2]
          exact ⟨_, rfl, hcount _, containsKV_append_self _ _ _⟩
      | some tstr =>
          simp only [hlv, hts2]
          exact ⟨_, rfl, hcount _, containsKV_append_self _ _ _⟩
  | some lv =>
      cases hts2 : event_body.timestamp with
      | none =>
          simp only [hlv, hts2]
          exact ⟨_, rfl, hcount _, containsKV_append_self _ _ _⟩
      | some tstr =>
          simp only [hlv, hts2]
          have key : ∀ t : TsRec, ∃ s1,
              (match check_and_insert_datapoint isNumeric parseTs
                  { s with timeSeries := s.timeSeries ++ [(adt_id, t)] } adt_id lv tstr with
               | none => none
               | some (_, s2) => some (true, s2)) = some (true, s1) ∧
              countKV s1.timeSeries adt_id = 1 ∧
              containsKV s1.timeSeries adt_id = true := by
            intro t
            obtain ⟨b, s2, hchk, hdisj⟩ :=
              check_and_insert_datapoint_timeSeries isNumeric parseTs
                { s with timeSeries := s.timeSeries ++ [(adt_id, t)] } adt_id lv tstr
                (containsKV_append_self _ _ _)
            rw [hchk]
            refine ⟨s2, rfl, ?_, ?_⟩
            · rcases hdisj with hh | ⟨v, hh⟩
              · rw [hh]
                show countKV (s.timeSeries ++ [(adt_id, t)]) adt_id = 1
                exact hcount t
              · rw [hh, countKV_append, countKV_eraseKV, countKV_singleton_self]
            · rcases hdisj with hh | ⟨v, hh⟩
              · rw [hh]
                exact containsKV_append_self _ _ _
              · rw [hh]
                exact containsKV_append_self _ _ _
          by_cases htr : lv ≠ [] ∧ tstr ≠ []
          · rw [if_pos htr]
            exact key _
          · rw [if_neg htr]
            exact ⟨_, rfl, hcount _, containsKV_append_self _ _ _⟩

end ADT2CDF

/-- C2: evaluating handle at the failing input.  A two-event batch whose
first event carries an unrecognized cloud-event type makes parse_event
return None after logging; handle then dereferences None and the whole batch
crashes with zero events processed -- the second, well-formed event is never
handled, contradicting the claim that only the offending event is skipped.
The same dispatch processes both events when the first event is well-formed,
and a batch-length mismatch aborts via the explicit return. -/
theorem C2_parse_failure_crashes_batch :
    ADT2CDF.handle (fun _ => true) true
        [{}, { bodyMetaModel := some ADT2CDF.ADT_MODEL_ID_ASSET }]
        [{ cloudEventsType := some "Some.Unknown.Type.Create".data,
           cloudEventsSubject := some "s1".data },
         { cloudEventsType := some "Microsoft.DigitalTwins.Twin.Create".data,
           cloudEventsSubject := some "s2".data }]
      = ADT2CDF.HandleOutcome.crash [] ∧
    ADT2CDF.handle (fun _ => true) true
        [{ bodyMetaModel := some ADT2CDF.ADT_MODEL_ID_ASSET },
         { bodyMetaModel := some ADT2CDF.ADT_MODEL_ID_ASSET }]
        [{ cloudEventsType := some "Microsoft.DigitalTwins.Twin.Create".data,
           cloudEventsSubject := some "s1".data },
         { cloudEventsType := some "Microsoft.DigitalTwins.Twin.Create".data,
           cloudEventsSubject := some "s2".data }]
      = ADT2CDF.HandleOutcome.finished 2 [true, true] ∧
    ADT2CDF.handle (fun _ => true) true
        [{ bodyMetaModel := some ADT2CDF.ADT_MODEL_ID_ASSET }]
        [{ cloudEventsType := some "Microsoft.DigitalTwins.Twin.Create".data,
           cloudEventsSubject := some "s1".data },
         { cloudEventsType := some "Microsoft.DigitalTwins.Twin.Create".data,
           cloudEventsSubject := some "s2".data }]
      = ADT2CDF.HandleOutcome.earlyReturn [] := by
  refine ⟨by decide, by decide, by decide⟩

/-- C5: replaying the same asset or timeseries Create event twice leaves
exactly one record with that external id in CDF and the second delivery
performs no create (it returns False on the unchanged store); replaying the
same Delete event twice performs no mutation on the second delivery. -/
theorem C5_handler_idempotence :
    (∀ (ROOT : Str) (s : ADT2CDF.CDFState) (adt_id : Str) (body : ADT2CDF.EventBody),
      containsKV s.assets adt_id = false →
        (ADT2CDF.create_asset ROOT s adt_id body).1 = true ∧
        countKV (ADT2CDF.create_asset ROOT s adt_id body).2.assets adt_id = 1 ∧
        ADT2CDF.create_asset ROOT (ADT2CDF.create_asset ROOT s adt_id body).2 adt_id body
          = (false, (ADT2CDF.create_asset ROOT s adt_id body).2)) ∧
    (∀ (ROOT : Str) (isNumeric : Str → Bool) (parseTs : Str → Nat)
        (s : ADT2CDF.CDFState) (adt_id : Str) (body : ADT2CDF.EventBody),
      containsKV s.timeSeries adt_id = false →
      containsKV s.assets ROOT = true →
        ∃ s1, ADT2CDF.create_timeseries ROOT isNumeric parseTs s adt_id body
            = some (true, s1) ∧
          countKV s1.timeSeries adt_id = 1 ∧
          ADT2CDF.create_timeseries ROOT isNumeric parseTs s1 adt_id body
            = some (false, s1)) ∧
    (∀ (s : ADT2CDF.CDFState) (adt_id : Str),
      ADT2CDF.delete_asset (ADT2CDF.delete_asset s adt_id).2 adt_id
        = (true, (ADT2CDF.delete_asset s adt_id).2)) ∧
    (∀ (s : ADT2CDF.CDFState) (adt_id : Str),
      ADT2CDF.delete_timeseries (ADT2CDF.delete_timeseries s adt_id).2 adt_id
        = (true, (ADT2CDF.delete_timeseries s adt_id).2)) := by
  refine ⟨?_, ?_, ?_, ?_⟩
  · intro ROOT s adt_id body h
    obtain ⟨a, ha⟩ := ADT2CDF.create_asset_absent_spec ROOT s adt_id body h
    refine ⟨by rw [ha], ?_, ?_⟩
    · rw [ha]
      show countKV (s.assets ++ [(adt_id, a)]) adt_id = 1
      rw [countKV_append, countKV_eq_zero_of_none ((containsKV_eq_false_iff _ _).mp h),
        countKV_singleton_self]
    · rw [ha]
      exact ADT2CDF.create_asset_present_spec ROOT _ adt_id body
        (containsKV_append_self _ _ _)
  · intro ROOT isNumeric parseTs s adt_id body h hroot
    obtain ⟨s1, h1, hcnt, hcont⟩ :=
      ADT2CDF.create_timeseries_absent_spec ROOT isNumeric parseTs s adt_id body h hroot
    exact ⟨s1, h1, hcnt,
      ADT2CDF.create_timeseries_present_spec ROOT isNumeric parseTs s1 adt_id body hcont⟩
  · intro s adt_id
    by_cases hc : containsKV s.assets adt_id = true
    · have hdel : ADT2CDF.delete_asset s adt_id
          = (true, { s with assets := eraseKV s.assets adt_id }) := by
        unfold ADT2CDF.delete_asset
        rw [if_pos (by simp [ADT2CDF.has_asset_in_CDF_by_external_id, hc])]
      rw [hdel]
      exact ADT2CDF.delete_asset_absent_spec _ adt_id (containsKV_eraseKV_self _ _)
    · have hf : containsKV s.assets adt_id = false := by
        revert hc; cases containsKV s.assets adt_id <;> simp
      rw [ADT2CDF.delete_asset_absent_spec s adt_id hf]
      exact ADT2CDF.delete_asset_absent_spec s adt_id hf
  · intro s adt_id
    by_cases hc : containsKV s.timeSeries adt_id = true
    · have hdel : ADT2CDF.delete_timeseries s adt_id
          = (true, { s with timeSeries := eraseKV s.timeSeries adt_id }) := by
        unfold ADT2CDF.delete_timeseries
        rw [if_pos (by simp [ADT2CDF.has_timeseries_in_CDF_by_external_id, hc])]
      rw [hdel]
      exact ADT2CDF.delete_timeseries_absent_spec _ adt_id (containsKV_eraseKV_self _ _)
    · have hf : containsKV s.timeSeries adt_id = false := by
        revert hc; cases containsKV s.timeSeries adt_id <;> simp
      rw [ADT2CDF.delete_timeseries_absent_spec s adt_id hf]
      exact ADT2CDF.delete_timeseries_absent_spec s adt_id hf

/-- Witness for C5 at a concrete store holding a root asset and one series. -/
theorem C5_handler_idempotence_witness :
    (containsKV sampleCdfState.assets "A1".data = false ∧
      (ADT2CDF.create_asset "ROOT".data sampleCdfState "A1".data {}).1 = true ∧
      countKV (ADT2CDF.create_asset "ROOT".data sampleCdfState "A1".data {}).2.assets
          "A1".data = 1 ∧
      ADT2CDF.create_asset "ROOT".data
          (ADT2CDF.create_asset "ROOT".data sampleCdfState "A1".data {}).2 "A1".data {}
        = (false, (ADT2CDF.create_asset "ROOT".data sampleCdfState "A1".data {}).2)) ∧
    (containsKV sampleCdfState.timeSeries "T1".data = false ∧
      containsKV sampleCdfState.assets "ROOT".data = true ∧
      ∃ s1, ADT2CDF.create_timeseries "ROOT".data (fun _ => true) (fun _ => 0)
            sampleCdfState "T1".data {} = some (true, s1) ∧
        countKV s1.timeSeries "T1".data = 1 ∧
        ADT2CDF.create_timeseries "ROOT".data (fun _ => true) (fun _ => 0) s1 "T1".data {}
          = some (false, s1)) ∧
    ADT2CDF.delete_asset (ADT2CDF.delete_asset sampleCdfState "A2".data).2 "A2".data
      = (true, (ADT2CDF.delete_asset sampleCdfState "A2".data).2) ∧
    ADT2CDF.delete_timeseries
        (ADT2CDF.delete_timeseries sampleCdfState "T0".data).2 "T0".data
      = (true, (ADT2CDF.delete_timeseries sampleCdfState "T0".data).2) :=
  ⟨⟨by decide, C5_handler_idempotence.1 "ROOT".data sampleCdfState "A1".data {} (by decide)⟩,
   ⟨by decide, by decide,
    C5_handler_idempotence.2.1 "ROOT".data (fun _ => true) (fun _ => 0) sampleCdfState
      "T1".data {} (by decide) (by decide)⟩,
   C5_handler_idempotence.2.2.1 sampleCdfState "A2".data,
   C5_handler_idempotence.2.2.2 sampleCdfState "T0".data⟩

/-- C10: a Create for an already existing external id performs no mutation
and returns False (reported as a processing problem by the dispatch loop),
while a Delete whose target is absent performs no mutation yet returns True
(reported as success). -/
theorem C10_redelivery_outcome_asymmetry :
    (∀ (ROOT : Str) (s : ADT2CDF.CDFState) (adt_id : Str) (body : ADT2CDF.EventBody),
      containsKV s.assets adt_id = true →
        ADT2CDF.create_asset ROOT s adt_id body = (false, s)) ∧
    (∀ (ROOT : Str) (isNumeric : Str → Bool) (parseTs : Str → Nat)
        (s : ADT2CDF.CDFState) (adt_id : Str) (body : ADT2CDF.EventBody),
      containsKV s.timeSeries adt_id = true →
        ADT2CDF.create_timeseries ROOT isNumeric parseTs s adt_id body
          = some (false, s)) ∧
    (∀ (s : ADT2CDF.CDFState) (adt_id : Str),
      containsKV s.assets adt_id = false →
        ADT2CDF.delete_asset s adt_id = (true, s)) ∧
    (∀ (s : ADT2CDF.CDFState) (adt_id : Str),
      containsKV s.timeSeries adt_id = false →
        ADT2CDF.delete_timeseries s adt_id = (true, s)) :=
  ⟨fun ROOT s adt_id body h => ADT2CDF.create_asset_present_spec ROOT s adt_id body h,
   fun ROOT isN pT s adt_id body h =>
     ADT2CDF.create_timeseries_present_spec ROOT isN pT s adt_id body h,
   fun s adt_id h => ADT2CDF.delete_asset_absent_spec s adt_id h,
   fun s adt_id h => ADT2CDF.delete_timeseries_absent_spec s adt_id h⟩

/-- Witness for C10 at a concrete store. -/
theorem C10_redelivery_outcome_asymmetry_witness :
    (containsKV sampleCdfState.assets "ROOT".data = true ∧
      ADT2CDF.create_asset "R2".data sampleCdfState "ROOT".data {}
        = (false, sampleCdfState)) ∧
    (containsKV sampleCdfState.timeSeries "T0".data = true ∧
      ADT2CDF.create_timeseries "ROOT".data (fun _ => false) (fun _ => 7)
          sampleCdfState "T0".data {} = some (false, sampleCdfState)) ∧
    (containsKV sampleCdfState.assets "A9".data = false ∧
      ADT2CDF.delete_asset sampleCdfState "A9".data = (true, sampleCdfState)) ∧
    (containsKV sampleCdfState.timeSeries "T9".data = false ∧
      ADT2CDF.delete_timeseries sampleCdfState "T9".data = (true, sampleCdfState)) :=
  ⟨⟨by decide, C10_redelivery_outcome_asymmetry.1 "R2".data sampleCdfState "ROOT".data {}
      (by decide)⟩,
   ⟨by decide, C10_redelivery_outcome_asymmetry.2.1 "ROOT".data (fun _ => false)
      (fun _ => 7) sampleCdfState "T0".data {} (by decide)⟩,
   ⟨by decide, C10_redelivery_outcome_asymmetry.2.2.1 sampleCdfState "A9".data (by decide)⟩,
   ⟨by decide, C10_redelivery_outcome_asymmetry.2.2.2 sampleCdfState "T9".data (by decide)⟩⟩

/-- C3: a parent-relationship Create event for which the twin-graph query for
other parent edges of the same source (excluding this relationship's own id)
returns at least one row makes create_relationship return False with the CDF
store untouched, so in particular the stored parent of the source asset is
unchanged. -/
theorem C3_single_parent_guard (s : ADT2CDF.CDFState) (event_body : ADT2CDF.RelBody)
    (rel_source rel_target : ADT2CDF.Endpoint)
    (other_parent_rels other_contain_rels : List ADT2CDF.AdtRow)
    (hname : event_body.relationshipName = "parent".data)
    (hq : other_parent_rels ≠ []) :
    ADT2CDF.create_relationship s event_body rel_source rel_target
        other_parent_rels other_contain_rels = some (false, s) ∧
    (ADT2CDF.create_relationship s event_body rel_source rel_target
        other_parent_rels other_contain_rels).map
        (fun r => lookupKV r.2.assets rel_source.externalId)
      = some (lookupKV s.assets rel_source.externalId) := by
  have h : ADT2CDF.create_relationship s event_body rel_source rel_target
      other_parent_rels other_contain_rels = some (false, s) := by
    unfold ADT2CDF.create_relationship
    rw [if_pos hname, if_pos hq]
  exact ⟨h, by rw [h, Option.map_some']⟩

/-- Witness for C3 at a concrete store with a competing parent edge. -/
theorem C3_single_parent_guard_witness :
    ({ relationshipName := "parent".data, relationshipId := "r1".data,
       sourceId := "A".data, targetId := "B".data } : ADT2CDF.RelBody).relationshipName
        = "parent".data ∧
    ([⟨"r2".data, "A".data, "C".data⟩] : List ADT2CDF.AdtRow) ≠ [] ∧
    (ADT2CDF.create_relationship
        { assets := [("A".data, { parentExternalId := some "R".data })] }
        { relationshipName := "parent".data, relationshipId := "r1".data,
          sourceId := "A".data, targetId := "B".data }
        ⟨"A".data, 1⟩ ⟨"B".data, 2⟩
        [⟨"r2".data, "A".data, "C".data⟩] []
      = some (false, { assets := [("A".data, { parentExternalId := some "R".data })] })) :=
  ⟨rfl, by decide,
   (C3_single_parent_guard
      { assets := [("A".data, { parentExternalId := some "R".data })] }
      { relationshipName := "parent".data, relationshipId := "r1".data,
        sourceId := "A".data, targetId := "B".data }
      ⟨"A".data, 1⟩ ⟨"B".data, 2⟩
      [⟨"r2".data, "A".data, "C".data⟩] [] rfl (by decide)).1⟩

/-- C6: evaluating the apply engine on patch ops for the immutable paths.
With no CDF asset named X (cdfHas false), an add op on /externalId logs the
inconsistency error although no collision exists, contradicting the claim
that the add is accepted exactly then; with a collision present (cdfHas
true) nothing is logged.  In both cases the record and the change flag are
untouched by the op and the remaining ops of the patch are still applied:
the trailing displayName op still updates the name. -/
theorem C6_externalid_add_logging_inverted :
    (ADT2CDF.fetch_changes_to_CDF_record (fun _ => false) { name := "N".data }
        [{ op := "add".data, path := "/externalId".data, value := "X".data },
         { op := "replace".data, path := "/displayName".data, value := "N2".data }]
      = (true, { name := "N2".data }, ["externalId exists".data])) ∧
    (ADT2CDF.fetch_changes_to_CDF_record (fun _ => true) { name := "N".data }
        [{ op := "add".data, path := "/externalId".data, value := "X".data }]
      = (false, { name := "N".data }, [])) ∧
    (ADT2CDF.fetch_changes_to_CDF_record (fun _ => true) { name := "N".data }
        [{ op := "replace".data, path := "/externalId".data, value := "X".data },
         { op := "remove".data, path := "/id".data },
         { op := "replace".data, path := "/displayName".data, value := "N2".data }]
      = (true, { name := "N2".data },
         ["externalId immutable".data, "id immutable".data])) := by
  refine ⟨by decide, by decide, by decide⟩

/-- C1 counterexample: A and B share external id X and internal id 1.  A
carries description "d" while B has none: the patch sequence removes the
description, which the apply engine realizes as the empty string, not as an
absent one, so field equality of the description fails.  A carries the
metadata keys "a b" and "a_b", which collide after alphabet translation,
while B has no metadata: the diff emits one remove op for the translated
key a_b and the apply engine deletes only the colliding original key it
recorded last, leaving "a b" behind, so the translated metadata of the
result still maps a_b while B's translated metadata is empty. -/
theorem C1_diff_apply_roundtrip_counterexample :
    (¬ (ADT2CDF.fetch_changes_to_CDF_record (fun _ => true) (cdfRecordOf cexA)
          (CDF2ADT.get_update_patches cexB (CDF2ADT.get_twin_dict cexA))).2.1.description
        = cexB.description) ∧
    ¬ (∀ q, lookupKV (CDF2ADT.convert_metadata
          (ADT2CDF.fetch_changes_to_CDF_record (fun _ => true) (cdfRecordOf cexA)
            (CDF2ADT.get_update_patches cexB (CDF2ADT.get_twin_dict cexA))).2.1.metadata) q
        = lookupKV (CDF2ADT.convert_metadata cexB.metadata) q) :=
  ⟨by decide, fun h => absurd (h "a_b".data) (by decide)⟩

theorem containsKV_append (m m' : List (Str × β)) (k : Str) :
    containsKV (m ++ m') k = (containsKV m k || containsKV m' k) := by
  rw [containsKV, containsKV, containsKV, lookupKV_append]
  cases lookupKV m k <;> cases lookupKV m' k <;> simp

theorem lookupKV_mem {m : List (Str × β)} {k : Str} {v : β} (h : lookupKV m k = some v) :
    (k, v) ∈ m := by
  induction m with
  | nil => cases h
  | cons p ps ih =>
      by_cases hp : p.1 = k
      · rw [lookupKV_cons, if_pos hp] at h
        have hv : p.2 = v := by injection h
        have hpkv : p = (k, v) := by
          cases p
          simp only at hp hv
          rw [hp, hv]
        rw [← hpkv]
        exact List.mem_cons_self _ _
      · rw [lookupKV_cons, if_neg hp] at h
        exact List.mem_cons_of_mem _ (ih h)

theorem mem_keys_of_mem {m : List (Str × β)} {p : Str × β} (h : p ∈ m) :
    p.1 ∈ m.map Prod.fst :=
  List.mem_map_of_mem Prod.fst h

theorem containsKV_iff_mem_keys (m : List (Str × β)) (k : Str) :
    containsKV m k = true ↔ k ∈ m.map Prod.fst := by
  constructor
  · intro h
    rcases (containsKV_iff _ _).mp h with ⟨v, hv⟩
    exact mem_keys_of_mem (lookupKV_mem hv)
  · intro h
    rcases List.mem_map.mp h with ⟨p, hp, hpk⟩
    by_contra hc
    have hfalse : containsKV m k = false := by
      revert hc; cases containsKV m k <;> simp
    have := (lookupKV_eq_none_iff m k).mp ((containsKV_eq_false_iff m k).mp hfalse)
    exact this p hp hpk

theorem NodupKeys_cons {p : Str × β} {ps : List (Str × β)} (h : NodupKeys (p :: ps)) :
    p.1 ∉ ps.map Prod.fst ∧ NodupKeys ps := by
  rw [NodupKeys, List.map_cons, List.nodup_cons] at h
  exact h

theorem lookupKV_of_mem_nodup {m : List (Str × β)} (hnd : NodupKeys m) {k : Str} {v : β}
    (h : (k, v) ∈ m) : lookupKV m k = some v := by
  induction m with
  | nil => cases h
  | cons p ps ih =>
      rcases NodupKeys_cons hnd with ⟨hpk, hnd'⟩
      rcases List.mem_cons.mp h with heq | hmem
      · rw [← heq, lookupKV_cons, if_pos rfl]
      · have hne : ¬ p.1 = k := by
          intro he
          exact hpk (he ▸ mem_keys_of_mem hmem)
        rw [lookupKV_cons, if_neg hne]
        exact ih hnd' hmem

theorem value_unique_nodup {m : List (Str × β)} (hnd : NodupKeys m) {k : Str} {v w : β}
    (h1 : (k, v) ∈ m) (h2 : (k, w) ∈ m) : v = w := by
  have e1 := lookupKV_of_mem_nodup hnd h1
  have e2 := lookupKV_of_mem_nodup hnd h2
  rw [e1] at e2
  injection e2

theorem lookupKV_map_form (f : Str × Str → Str) (g : Str × Str → γ)
    (m : List (Str × Str)) (q : Str) :
    lookupKV (m.map (fun p => (f p, g p))) q = (m.find? (fun p => f p = q)).map g := by
  induction m with
  | nil => simp
  | cons p ps ih =>
      by_cases h : f p = q
      · simp [List.find?_cons, h]
      · simp [List.find?_cons, h, ih]

theorem find?_eq_some_of_mem_unique {α : Type} {p : α → Bool} {l : List α} {a : α}
    (ha : a ∈ l) (hpa : p a = true) (huniq : ∀ b ∈ l, p b = true → b = a) :
    l.find? p = some a := by
  induction l with
  | nil => cases ha
  | cons x xs ih =>
      by_cases hx : p x = true
      · have hxa : x = a := huniq x (List.mem_cons_self _ _) hx
        subst hxa
        simp [List.find?_cons, hx]
      · have hxa : ¬ x = a := fun he => hx (he ▸ hpa)
        rcases List.mem_cons.mp ha with heq | hmem
        · exact absurd heq.symm hxa
        · have hxf : p x = false := by revert hx; cases p x <;> simp
          simp only [List.find?_cons, hxf]
          exact ih hmem (fun b hb hpb => huniq b (List.mem_cons_of_mem _ hb) hpb)

theorem insertKV_of_not_contains {m : List (Str × β)} {k : Str} (v : β)
    (h : containsKV m k = false) : insertKV m k v = m ++ [(k, v)] := by
  unfold insertKV
  rw [if_neg (by rw [h]; exact Bool.false_ne_true)]

theorem foldl_insertKV_fresh (f : Str × Str → Str) (g : Str × Str → γ) :
    ∀ (m : List (Str × Str)) (acc : List (Str × γ)),
      (∀ p ∈ m, containsKV acc (f p) = false) →
      (m.map f).Pairwise (fun a b => a ≠ b) →
      m.foldl (fun a p => insertKV a (f p) (g p)) acc
        = acc ++ m.map (fun p => (f p, g p)) := by
  intro m
  induction m with
  | nil => intro acc _ _; simp
  | cons p ps ih =>
      intro acc hfresh hpw
      rw [List.foldl_cons, insertKV_of_not_contains (g p) (hfresh p (List.mem_cons_self _ _))]
      rw [List.map_cons] at hpw
      have hpw' := List.pairwise_cons.mp hpw
      have hfresh' : ∀ q ∈ ps, containsKV (acc ++ [(f p, g p)]) (f q) = false := by
        intro q hq
        rw [containsKV_append]
        have h1 : containsKV acc (f q) = false := hfresh q (List.mem_cons_of_mem _ hq)
        have h2 : containsKV [(f p, g p)] (f q) = false := by
          rw [containsKV_eq_false_iff, lookupKV_eq_none_iff]
          intro x hx
          rcases List.mem_cons.mp hx with heq | hmem
          · rw [heq]
            exact fun he => hpw'.1 (f q) (List.mem_map_of_mem f hq) he
          · cases hmem
        rw [h1, h2]
        rfl
      rw [ih (acc ++ [(f p, g p)]) hfresh' hpw'.2, List.map_cons, List.append_assoc]
      rfl

theorem mem_keys_insertKV {m : List (Str × β)} {k q : Str} {v : β}
    (h : q ∈ (insertKV m k v).map Prod.fst) : q ∈ m.map Prod.fst ∨ q = k := by
  unfold insertKV at h
  by_cases hc : containsKV m k = true
  · rw [if_pos hc, List.map_map] at h
    rcases List.mem_map.mp h with ⟨p, hp, hpq⟩
    by_cases hpk : p.1 = k
    · right
      simp only [Function.comp, hpk, if_pos rfl] at hpq
      exact hpq.symm
    · left
      simp only [Function.comp, if_neg hpk] at hpq
      exact hpq ▸ mem_keys_of_mem hp
  · rw [if_neg hc, List.map_append] at h
    rcases List.mem_append.mp h with h1 | h1
    · exact Or.inl h1
    · right
      simpa using h1

theorem keys_insertKV_of_contains {m : List (Str × β)} {k : Str} (v : β)
    (h : containsKV m k = true) : (insertKV m k v).map Prod.fst = m.map Prod.fst := by
  unfold insertKV
  rw [if_pos h, List.map_map]
  refine List.map_congr_left ?_
  intro p _
  by_cases hpk : p.1 = k
  · simp [Function.comp, hpk]
  · simp [Function.comp, hpk]

theorem NodupKeys_insertKV {m : List (Str × β)} {k : Str} (v : β)
    (h : NodupKeys m) : NodupKeys (insertKV m k v) := by
  by_cases hc : containsKV m k = true
  · rw [NodupKeys, keys_insertKV_of_contains v hc]
    exact h
  · have hc' : containsKV m k = false := by
      revert hc; cases containsKV m k <;> simp
    rw [insertKV_of_not_contains v hc', NodupKeys, List.map_append]
    have hk : k ∉ m.map Prod.fst := by
      intro hmem
      rw [(containsKV_iff_mem_keys m k).mpr hmem] at hc'
      cases hc'
    have h' : (m.map Prod.fst).Nodup := h
    simp [List.nodup_append, h', hk]

theorem isPrefixOf_append_self : ∀ (p k : Str), p.isPrefixOf (p ++ k) = true
  | [], _ => by simp [List.isPrefixOf]
  | c :: p', k => by
      show ((c == c) && p'.isPrefixOf (p' ++ k)) = true
      rw [isPrefixOf_append_self p' k, beq_self_eq_true]
      rfl

theorem pyReplaceAux_fuel (pat rep : Str) :
    ∀ (n : Nat) (s : Str) (f g : Nat), s.length ≤ n → s.length ≤ f → s.length ≤ g →
      pyReplaceAux pat rep f s = pyReplaceAux pat rep g s := by
  intro n
  induction n with
  | zero =>
      intro s f g hn _ _
      have hs : s = [] := List.eq_nil_of_length_eq_zero (Nat.le_zero.mp hn)
      subst hs
      cases f <;> cases g <;> rfl
  | succ n ih =>
      intro s f g hn hf hg
      cases s with
      | nil => cases f <;> cases g <;> rfl
      | cons c cs =>
          simp only [List.length_cons] at hn hf hg
          cases f with
          | zero => omega
          | succ f' =>
              cases g with
              | zero => omega
              | succ g' =>
                  have ef : pyReplaceAux pat rep (f' + 1) (c :: cs)
                      = if pat ≠ [] ∧ pat.isPrefixOf (c :: cs) then
                          rep ++ pyReplaceAux pat rep f' (List.drop pat.length (c :: cs))
                        else c :: pyReplaceAux pat rep f' cs := rfl
                  have eg : pyReplaceAux pat rep (g' + 1) (c :: cs)
                      = if pat ≠ [] ∧ pat.isPrefixOf (c :: cs) then
                          rep ++ pyReplaceAux pat rep g' (List.drop pat.length (c :: cs))
                        else c :: pyReplaceAux pat rep g' cs := rfl
                  rw [ef, eg]
                  by_cases hb : pat ≠ [] ∧ pat.isPrefixOf (c :: cs)
                  · rw [if_pos hb, if_pos hb]
                    have hpl : 1 ≤ pat.length := by
                      cases hp : pat with
                      | nil => exact absurd hp hb.1
                      | cons _ _ => simp
                    have hdl : (List.drop pat.length (c :: cs)).length = cs.length + 1 - pat.length := by
                      simp [List.length_drop]
                    congr 1
                    exact ih _ f' g' (by omega) (by omega) (by omega)
                  · rw [if_neg hb, if_neg hb]
                    congr 1
                    exact ih cs f' g' (by omega) (by omega) (by omega)

theorem pyReplaceAux_eq_pyReplace (pat rep : Str) {s : Str} {f : Nat} (hf : s.length ≤ f) :
    pyReplaceAux pat rep f s = pyReplace pat rep s :=
  pyReplaceAux_fuel pat rep f s f s.length hf hf (Nat.le_refl _)

theorem pyReplace_append_self (pat rep k : Str) (hp : pat ≠ []) :
    pyReplace pat rep (pat ++ k) = rep ++ pyReplace pat rep k := by
  cases hpat : pat with
  | nil => exact absurd hpat hp
  | cons c cs =>
      have hl : ((c :: cs) ++ k).length = (cs.length + k.length) + 1 := by
        rw [List.length_append, List.length_cons]
        omega
      rw [pyReplace, hl, List.cons_append]
      have e1 : pyReplaceAux (c :: cs) rep ((cs.length + k.length) + 1) (c :: (cs ++ k))
          = if (c :: cs) ≠ [] ∧ (c :: cs).isPrefixOf (c :: (cs ++ k)) then
              rep ++ pyReplaceAux (c :: cs) rep (cs.length + k.length)
                (List.drop (c :: cs).length (c :: (cs ++ k)))
            else c :: pyReplaceAux (c :: cs) rep (cs.length + k.length) (cs ++ k) := rfl
      rw [e1, if_pos ⟨List.cons_ne_nil c cs, isPrefixOf_append_self (c :: cs) k⟩]
      have hd : List.drop (c :: cs).length (c :: (cs ++ k)) = k := List.drop_left (c :: cs) k
      rw [hd]
      congr 1
      exact pyReplaceAux_eq_pyReplace (c :: cs) rep (by simp)

theorem foldc_eq_map (g : Str × Str → γ) (m : List (Str × Str))
    (hinj : (m.map Prod.fst).Pairwise
      (fun a b => convert_metadata_key a ≠ convert_metadata_key b)) :
    m.foldl (fun acc p => insertKV acc (convert_metadata_key p.1) (g p)) []
      = m.map (fun p => (convert_metadata_key p.1, g p)) := by
  have hpw : (m.map (fun p => convert_metadata_key p.1)).Pairwise (fun a b => a ≠ b) := by
    have : m.map (fun p => convert_metadata_key p.1)
        = (m.map Prod.fst).map convert_metadata_key := by rw [List.map_map]; rfl
    rw [this, List.pairwise_map]
    exact hinj
  have h := foldl_insertKV_fresh (fun p => convert_metadata_key p.1) g m []
    (fun p _ => rfl) hpw
  simpa using h

theorem NodupKeys_foldc (g : Str × Str → γ) (m : List (Str × Str)) :
    NodupKeys (m.foldl (fun acc p => insertKV acc (convert_metadata_key p.1) (g p)) []) := by
  suffices h : ∀ acc : List (Str × γ), NodupKeys acc →
      NodupKeys (m.foldl (fun acc p => insertKV acc (convert_metadata_key p.1) (g p)) acc) by
    exact h [] (by simp [NodupKeys])
  induction m with
  | nil => intro acc hacc; exact hacc
  | cons p ps ih =>
      intro acc hacc
      exact ih _ (NodupKeys_insertKV _ hacc)

theorem mem_keys_foldc_aux (g : Str × Str → γ) :
    ∀ (m : List (Str × Str)) (acc : List (Str × γ)) (q : Str),
      q ∈ (m.foldl (fun acc p => insertKV acc (convert_metadata_key p.1) (g p)) acc).map
        Prod.fst →
      q ∈ acc.map Prod.fst ∨ ∃ k ∈ m.map Prod.fst, q = convert_metadata_key k := by
  intro m
  induction m with
  | nil => intro acc q ha; exact Or.inl ha
  | cons p ps ih =>
      intro acc q ha
      rcases ih (insertKV acc (convert_metadata_key p.1) (g p)) q ha with hin | hex
      · rcases mem_keys_insertKV hin with h1 | h1
        · exact Or.inl h1
        · exact Or.inr ⟨p.1, by simp, h1⟩
      · rcases hex with ⟨k, hk, he⟩
        exact Or.inr ⟨k, by simp only [List.map_cons]; exact List.mem_cons_of_mem _ hk, he⟩

theorem mem_keys_foldc (g : Str × Str → γ) (m : List (Str × Str)) {q : Str}
    (h : q ∈ (m.foldl (fun acc p => insertKV acc (convert_metadata_key p.1) (g p)) []).map
          Prod.fst) :
    ∃ k ∈ m.map Prod.fst, q = convert_metadata_key k :=
  (mem_keys_foldc_aux g m [] q h).resolve_left (by simp)

theorem NodupKeys_c2a (m : List (Str × Str)) : NodupKeys (CDF2ADT.convert_metadata m) :=
  NodupKeys_foldc _ m

theorem keys_c2a_fixed (m : List (Str × Str)) {q : Str}
    (h : q ∈ (CDF2ADT.convert_metadata m).map Prod.fst) : convert_metadata_key q = q := by
  rcases mem_keys_foldc _ m h with ⟨k, _, he⟩
  rw [he, convert_metadata_key_idem]

theorem c2a_eq_map (m : List (Str × Str))
    (hinj : (m.map Prod.fst).Pairwise
      (fun a b => convert_metadata_key a ≠ convert_metadata_key b)) :
    CDF2ADT.convert_metadata m = m.map (fun p => (convert_metadata_key p.1, p.2)) :=
  foldc_eq_map (fun p => p.2) m hinj

theorem a2c_cm_eq_map (m : List (Str × Str))
    (hinj : (m.map Prod.fst).Pairwise
      (fun a b => convert_metadata_key a ≠ convert_metadata_key b)) :
    ADT2CDF.convert_metadata m
      = m.map (fun p => (convert_metadata_key p.1, ADT2CDF.MetadataConversion.mk p.2 p.1)) :=
  foldc_eq_map (fun p => ADT2CDF.MetadataConversion.mk p.2 p.1) m hinj

theorem dictEq_lookupKV {m1 m2 : List (Str × Str)} (h : CDF2ADT.dictEq m1 m2 = true) (q : Str) :
    lookupKV m1 q = lookupKV m2 q := by
  rw [CDF2ADT.dictEq, Bool.and_eq_true, List.all_eq_true, List.all_eq_true] at h
  cases h1 : lookupKV m1 q with
  | some v =>
      have hm : (q, v) ∈ m1 := lookupKV_mem h1
      have := of_decide_eq_true (h.1 (q, v) hm)
      exact this.symm
  | none =>
      cases h2 : lookupKV m2 q with
      | none => rfl
      | some w =>
          have hm : (q, w) ∈ m2 := lookupKV_mem h2
          have := of_decide_eq_true (h.2 (q, w) hm)
          rw [h1] at this
          cases this

theorem pairwise_key_entry_unique {f : Str → Str} {l : List (Str × β)}
    (h : (l.map Prod.fst).Pairwise (fun a b => f a ≠ f b)) :
    ∀ p ∈ l, ∀ b ∈ l, f b.1 = f p.1 → b = p := by
  have h' : l.Pairwise (fun a b => f a.1 ≠ f b.1) := by
    rw [List.pairwise_map] at h
    exact h
  have hsym : Symmetric (fun (a b : Str × β) => f a.1 ≠ f b.1) := fun _ _ hxy => Ne.symm hxy
  intro p hp b hb he
  by_contra hne
  exact (h'.forall hsym hb hp hne) he

theorem find?_key_image {f : Str → Str} {m : List (Str × β)}
    (h : (m.map Prod.fst).Pairwise (fun a b => f a ≠ f b)) {p : Str × β} (hp : p ∈ m) :
    m.find? (fun b => f b.1 = f p.1) = some p :=
  find?_eq_some_of_mem_unique hp (by simp)
    (fun b hb hpb => pairwise_key_entry_unique h p hp b hb (of_decide_eq_true hpb))

theorem insertKV_append_left {m m' : List (Str × β)} {k : Str} (v : β)
    (h1 : containsKV m k = true) (h2 : ∀ p ∈ m', p.1 ≠ k) :
    insertKV (m ++ m') k v = insertKV m k v ++ m' := by
  have hc : containsKV (m ++ m') k = true := by
    rw [containsKV_append, h1]
    rfl
  unfold insertKV
  rw [if_pos hc, if_pos h1, List.map_append]
  congr 1
  have he : m'.map (fun p => if p.1 = k then (k, v) else p) = m'.map id :=
    List.map_congr_left (fun p hp => by rw [if_neg (h2 p hp)]; rfl)
  rw [he, List.map_id]

theorem foldl_eraseKV_eq_filter :
    ∀ (ks : List Str) (m : List (Str × β)),
      ks.foldl (fun acc k => eraseKV acc k) m = m.filter (fun p => ¬ p.1 ∈ ks) := by
  intro ks
  induction ks with
  | nil =>
      intro m
      simp
  | cons k ks ih =>
      intro m
      rw [List.foldl_cons, ih (eraseKV m k), eraseKV, List.filter_filter]
      refine List.filter_congr ?_
      intro p _
      by_cases h1 : p.1 = k <;> by_cases h2 : p.1 ∈ ks <;> simp [h1, h2]

theorem metaPath_ne_short (kk t : Str) (ht : t.length < 13) :
    ¬ ("/tags/values/".data ++ kk = t) := by
  intro h
  have hlen := congrArg List.length h
  rw [List.length_append] at hlen
  have h13 : ("/tags/values/".data).length = 13 := by decide
  omega

theorem applyAction_meta_addrep (cdfHas : Str → Bool)
    (cm : List (Str × ADT2CDF.MetadataConversion)) (hc : Bool) (r : ADT2CDF.Rec)
    (errs : List Str) (op : Str) (v kk : Str)
    (hop : op = "replace".data ∨ op = "add".data)
    (hkk : pyReplace "/tags/values/".data [] kk = kk) :
    ADT2CDF.applyAction cdfHas cm (hc, r, errs)
        { op := op, path := "/tags/values/".data ++ kk, value := v }
      = ((ADT2CDF.check_value_change_and_update_record hc r cm kk v).1,
         (ADT2CDF.check_value_change_and_update_record hc r cm kk v).2, errs) := by
  simp only [ADT2CDF.applyAction]
  rw [if_neg (metaPath_ne_short kk "/displayName".data (by decide)),
      if_neg (metaPath_ne_short kk "/description".data (by decide)),
      if_neg (metaPath_ne_short kk "/externalId".data (by decide)),
      if_neg (metaPath_ne_short kk "/id".data (by decide)),
      if_neg (metaPath_ne_short kk "/tags/values".data (by decide)),
      if_pos (isPrefixOf_append_self "/tags/values/".data kk)]
  rw [pyReplace_append_self "/tags/values/".data [] kk (by decide), List.nil_append, hkk]
  rw [if_pos hop]

theorem applyAction_meta_remove (cdfHas : Str → Bool)
    (cm : List (Str × ADT2CDF.MetadataConversion)) (hc : Bool) (r : ADT2CDF.Rec)
    (errs : List Str) (kk : Str) (mc : ADT2CDF.MetadataConversion)
    (hkk : pyReplace "/tags/values/".data [] kk = kk)
    (hcm : lookupKV cm kk = some mc) :
    ADT2CDF.applyAction cdfHas cm (hc, r, errs)
        { op := "remove".data, path := "/tags/values/".data ++ kk }
      = (true, { r with metadata := eraseKV r.metadata mc.key }, errs) := by
  simp only [ADT2CDF.applyAction]
  rw [if_neg (metaPath_ne_short kk "/displayName".data (by decide)),
      if_neg (metaPath_ne_short kk "/description".data (by decide)),
      if_neg (metaPath_ne_short kk "/externalId".data (by decide)),
      if_neg (metaPath_ne_short kk "/id".data (by decide)),
      if_neg (metaPath_ne_short kk "/tags/values".data (by decide)),
      if_pos (isPrefixOf_append_self "/tags/values/".data kk)]
  rw [pyReplace_append_self "/tags/values/".data [] kk (by decide), List.nil_append, hkk]
  rw [if_neg (by decide : ¬ ("remove".data = "replace".data ∨ "remove".data = "add".data))]
  rw [if_pos ⟨trivial, by rw [containsKV, hcm]; rfl⟩]
  rw [hcm]

theorem applyAction_displayName (cdfHas : Str → Bool)
    (cm : List (Str × ADT2CDF.MetadataConversion)) (hc : Bool) (r : ADT2CDF.Rec)
    (errs : List Str) (v : Str) :
    ADT2CDF.applyAction cdfHas cm (hc, r, errs)
        { op := "replace".data, path := "/displayName".data, value := v }
      = if r.name ≠ v then (true, { r with name := v }, errs) else (hc, r, errs) := by
  simp only [ADT2CDF.applyAction]
  rw [if_pos trivial, if_neg (by decide : ¬ ("replace".data : Str) = "remove".data)]

theorem applyAction_desc_remove (cdfHas : Str → Bool)
    (cm : List (Str × ADT2CDF.MetadataConversion)) (hc : Bool) (r : ADT2CDF.Rec)
    (errs : List Str) :
    ADT2CDF.applyAction cdfHas cm (hc, r, errs)
        { op := "remove".data, path := "/description".data }
      = if truthy r.description then (true, { r with description := some [] }, errs)
        else (hc, r, errs) := by
  simp only [ADT2CDF.applyAction]
  rw [if_neg (by decide : ¬ ("/description".data : Str) = "/displayName".data), if_pos trivial,
      if_pos trivial]

theorem applyAction_desc_set (cdfHas : Str → Bool)
    (cm : List (Str × ADT2CDF.MetadataConversion)) (hc : Bool) (r : ADT2CDF.Rec)
    (errs : List Str) (op : Str) (v : Str)
    (hop : op = "replace".data ∨ op = "add".data) :
    ADT2CDF.applyAction cdfHas cm (hc, r, errs)
        { op := op, path := "/description".data, value := v }
      = if ¬ r.description = some v then (true, { r with description := some v }, errs)
        else (hc, r, errs) := by
  have hne : ¬ op = "remove".data := by
    rcases hop with h | h <;> rw [h] <;> decide
  simp only [ADT2CDF.applyAction]
  rw [if_neg (by decide : ¬ ("/description".data : Str) = "/displayName".data), if_pos trivial,
      if_neg hne]

theorem applyAction_externalId (cdfHas : Str → Bool)
    (cm : List (Str × ADT2CDF.MetadataConversion)) (hc : Bool) (r : ADT2CDF.Rec)
    (errs : List Str) (op : Str) (v : Str) :
    ∃ e : List Str,
      ADT2CDF.applyAction cdfHas cm (hc, r, errs)
          { op := op, path := "/externalId".data, value := v }
        = (hc, r, errs ++ e) := by
  simp only [ADT2CDF.applyAction]
  rw [if_neg (by decide : ¬ ("/externalId".data : Str) = "/displayName".data),
      if_neg (by decide : ¬ ("/externalId".data : Str) = "/description".data), if_pos trivial]
  by_cases ho : op = "add".data
  · rw [if_pos ho]
    by_cases hcd : cdfHas v = true
    · exact ⟨[], by rw [if_neg (by rw [hcd]; intro h; exact h rfl), List.append_nil]⟩
    · exact ⟨["externalId exists".data], by rw [if_pos (fun h => hcd h)]⟩
  · exact ⟨["externalId immutable".data], by rw [if_neg ho]⟩

theorem applyAction_id (cdfHas : Str → Bool)
    (cm : List (Str × ADT2CDF.MetadataConversion)) (hc : Bool) (r : ADT2CDF.Rec)
    (errs : List Str) (op : Str) (v : Str) :
    ∃ e : List Str,
      ADT2CDF.applyAction cdfHas cm (hc, r, errs)
          { op := op, path := "/id".data, value := v }
        = (hc, r, errs ++ e) := by
  simp only [ADT2CDF.applyAction]
  rw [if_neg (by decide : ¬ ("/id".data : Str) = "/displayName".data),
      if_neg (by decide : ¬ ("/id".data : Str) = "/description".data),
      if_neg (by decide : ¬ ("/id".data : Str) = "/externalId".data), if_pos trivial]
  by_cases ho : op = "add".data
  · exact ⟨[], by rw [if_neg (fun h => h ho), List.append_nil]⟩
  · exact ⟨["id immutable".data], by rw [if_pos ho]⟩

theorem filter_map_comm {α α' : Type} (f : α → α') (pr : α' → Bool) :
    ∀ l : List α, (l.map f).filter pr = (l.filter (fun a => pr (f a))).map f
  | [] => rfl
  | a :: l => by
      by_cases h : pr (f a) = true
      · simp only [List.map_cons, List.filter_cons, h, if_true, List.map_cons,
          filter_map_comm f pr l]
      · simp only [List.map_cons, List.filter_cons, h, if_false, Bool.false_eq_true,
          filter_map_comm f pr l]

theorem mdAddsResult_nil (mA : List (Str × Str)) : mdAddsResult mA [] = mA := by
  simp [mdAddsResult]

theorem mdAddsResult_step_skip (mA pre : List (Str × Str))
    (hinj : (mA.map Prod.fst).Pairwise
      (fun a b => convert_metadata_key a ≠ convert_metadata_key b))
    {kk v : Str}
    (hlv : lookupKV (mA.map (fun q => (convert_metadata_key q.1, q.2))) kk = some v) :
    mdAddsResult mA (pre ++ [(kk, v)]) = mdAddsResult mA pre := by
  have hmap : mA.map (fun p =>
        (p.1, (lookupKV (pre ++ [(kk, v)]) (convert_metadata_key p.1)).getD p.2))
      = mA.map (fun p => (p.1, (lookupKV pre (convert_metadata_key p.1)).getD p.2)) := by
    refine List.map_congr_left ?_
    intro p hp
    rw [lookupKV_append]
    cases hq : lookupKV pre (convert_metadata_key p.1) with
    | some w => rfl
    | none =>
        show (p.1, (lookupKV [(kk, v)] (convert_metadata_key p.1)).getD p.2) = _
        rw [lookupKV_cons, lookupKV_nil]
        by_cases hkc : kk = convert_metadata_key p.1
        · rw [if_pos hkc]
          rw [lookupKV_map_form] at hlv
          rcases Option.map_eq_some'.mp hlv with ⟨b, hfb, hbv⟩
          have hbmem := List.mem_of_find?_eq_some hfb
          have hbpred : convert_metadata_key b.1 = kk := by
            have h1 := List.find?_some hfb
            simpa using h1
          have hbp : b = p := pairwise_key_entry_unique hinj p hp b hbmem (by rw [hbpred, hkc])
          have hv2 : v = p.2 := by rw [← hbv, hbp]
          rw [hv2]
          rfl
        · rw [if_neg hkc]
  have hfil : (pre ++ [(kk, v)]).filter (fun p =>
        ¬ containsKV (mA.map (fun q => (convert_metadata_key q.1, q.2))) p.1)
      = pre.filter (fun p =>
        ¬ containsKV (mA.map (fun q => (convert_metadata_key q.1, q.2))) p.1) := by
    rw [List.filter_append]
    have h1 : [(kk, v)].filter (fun p =>
        ¬ containsKV (mA.map (fun q => (convert_metadata_key q.1, q.2))) p.1) = [] := by
      simp [containsKV, hlv]
    rw [h1, List.append_nil]
  rw [mdAddsResult, mdAddsResult, hmap, hfil]

theorem mdAddsResult_step_replace (mA pre : List (Str × Str))
    (hinj : (mA.map Prod.fst).Pairwise
      (fun a b => convert_metadata_key a ≠ convert_metadata_key b))
    {kk v : Str} {b : Str × Str}
    (hfb : mA.find? (fun q => convert_metadata_key q.1 = kk) = some b)
    (hpre : ¬ kk ∈ pre.map Prod.fst)
    (hfixpre : ∀ k ∈ pre.map Prod.fst, convert_metadata_key k = k) :
    insertKV (mdAddsResult mA pre) b.1 v = mdAddsResult mA (pre ++ [(kk, v)]) := by
  have hbmem := List.mem_of_find?_eq_some hfb
  have hbk : convert_metadata_key b.1 = kk := by
    have h1 := List.find?_some hfb
    simpa using h1
  have hlv : lookupKV (mA.map (fun q => (convert_metadata_key q.1, q.2))) kk = some b.2 := by
    rw [lookupKV_map_form, hfb]
    rfl
  have hprenone : lookupKV pre kk = none :=
    (lookupKV_eq_none_iff pre kk).mpr
      (fun e he hek => hpre (hek ▸ mem_keys_of_mem he))
  have h1 : containsKV (mA.map (fun p =>
      (p.1, (lookupKV pre (convert_metadata_key p.1)).getD p.2))) b.1 = true := by
    rw [containsKV_iff_mem_keys, List.map_map]
    exact List.mem_map_of_mem _ hbmem
  have h2 : ∀ p ∈ pre.filter (fun p =>
      ¬ containsKV (mA.map (fun q => (convert_metadata_key q.1, q.2))) p.1), p.1 ≠ b.1 := by
    intro p hp hpb
    have hppre := List.mem_of_mem_filter hp
    have hfix := hfixpre p.1 (mem_keys_of_mem hppre)
    have : p.1 = kk := by rw [← hfix, hpb, hbk]
    exact hpre (this ▸ mem_keys_of_mem hppre)
  rw [mdAddsResult, insertKV_append_left v h1 h2]
  have hmap : insertKV (mA.map (fun p =>
        (p.1, (lookupKV pre (convert_metadata_key p.1)).getD p.2))) b.1 v
      = mA.map (fun p =>
        (p.1, (lookupKV (pre ++ [(kk, v)]) (convert_metadata_key p.1)).getD p.2)) := by
    rw [insertKV, if_pos h1, List.map_map]
    refine List.map_congr_left ?_
    intro p hp
    by_cases hpb : p.1 = b.1
    · have hpeq : p = b := pairwise_key_entry_unique hinj b hbmem p hp (by rw [hpb])
      have hconv : convert_metadata_key p.1 = kk := by rw [hpeq, hbk]
      have hlook : lookupKV (pre ++ [(kk, v)]) (convert_metadata_key p.1) = some v := by
        rw [hconv, lookupKV_append, hprenone, lookupKV_cons, if_pos rfl]
        rfl
      show (if p.1 = b.1 then (b.1, v)
        else (p.1, (lookupKV pre (convert_metadata_key p.1)).getD p.2)) = _
      rw [if_pos hpb, hlook, hpb]
      rfl
    · have hlook : lookupKV (pre ++ [(kk, v)]) (convert_metadata_key p.1)
          = lookupKV pre (convert_metadata_key p.1) := by
        rw [lookupKV_append]
        cases hq : lookupKV pre (convert_metadata_key p.1) with
        | some w => rfl
        | none =>
            show lookupKV [(kk, v)] (convert_metadata_key p.1) = none
            rw [lookupKV_cons, lookupKV_nil]
            have hkc : ¬ kk = convert_metadata_key p.1 := by
              intro hkc
              have hpeq : p = b := pairwise_key_entry_unique hinj b hbmem p hp (by rw [← hkc, hbk])
              exact hpb (by rw [hpeq])
            rw [if_neg hkc]
      show (if p.1 = b.1 then (b.1, v)
        else (p.1, (lookupKV pre (convert_metadata_key p.1)).getD p.2)) = _
      rw [if_neg hpb, hlook]
  have hfil : pre.filter (fun p =>
        ¬ containsKV (mA.map (fun q => (convert_metadata_key q.1, q.2))) p.1)
      = (pre ++ [(kk, v)]).filter (fun p =>
        ¬ containsKV (mA.map (fun q => (convert_metadata_key q.1, q.2))) p.1) := by
    rw [List.filter_append]
    have h3 : [(kk, v)].filter (fun p =>
        ¬ containsKV (mA.map (fun q => (convert_metadata_key q.1, q.2))) p.1) = [] := by
      simp [containsKV, hlv]
    rw [h3, List.append_nil]
  rw [hmap, hfil, mdAddsResult]

theorem mdAddsResult_step_add (mA pre : List (Str × Str))
    {kk v : Str}
    (hf : mA.find? (fun q => convert_metadata_key q.1 = kk) = none)
    (hpre : ¬ kk ∈ pre.map Prod.fst) :
    mdAddsResult mA pre ++ [(kk, v)] = mdAddsResult mA (pre ++ [(kk, v)]) := by
  have hlv : lookupKV (mA.map (fun q => (convert_metadata_key q.1, q.2))) kk = none := by
    rw [lookupKV_map_form, hf]
    rfl
  have hmap : mA.map (fun p => (p.1, (lookupKV pre (convert_metadata_key p.1)).getD p.2))
      = mA.map (fun p =>
        (p.1, (lookupKV (pre ++ [(kk, v)]) (convert_metadata_key p.1)).getD p.2)) := by
    refine List.map_congr_left ?_
    intro p hp
    have hlook : lookupKV (pre ++ [(kk, v)]) (convert_metadata_key p.1)
        = lookupKV pre (convert_metadata_key p.1) := by
      rw [lookupKV_append]
      cases hq : lookupKV pre (convert_metadata_key p.1) with
      | some w => rfl
      | none =>
          show lookupKV [(kk, v)] (convert_metadata_key p.1) = none
          rw [lookupKV_cons, lookupKV_nil]
          have hkc : ¬ kk = convert_metadata_key p.1 := by
            intro hkc
            have := List.find?_eq_none.mp hf p hp
            simp only [decide_eq_true_eq] at this
            exact this hkc.symm
          rw [if_neg hkc]
    rw [hlook]
  have hfil : (pre ++ [(kk, v)]).filter (fun p =>
        ¬ containsKV (mA.map (fun q => (convert_metadata_key q.1, q.2))) p.1)
      = pre.filter (fun p =>
        ¬ containsKV (mA.map (fun q => (convert_metadata_key q.1, q.2))) p.1) ++ [(kk, v)] := by
    rw [List.filter_append]
    have h3 : [(kk, v)].filter (fun p =>
        ¬ containsKV (mA.map (fun q => (convert_metadata_key q.1, q.2))) p.1) = [(kk, v)] := by
      simp [containsKV, hlv]
    rw [h3]
  rw [mdAddsResult, mdAddsResult, hmap, hfil, List.append_assoc]

theorem mdAddsResult_not_contains (mA pre : List (Str × Str)) {kk : Str}
    (hf : mA.find? (fun q => convert_metadata_key q.1 = kk) = none)
    (hfixkk : convert_metadata_key kk = kk)
    (hpre : ¬ kk ∈ pre.map Prod.fst) :
    containsKV (mdAddsResult mA pre) kk = false := by
  rw [containsKV_eq_false_iff, lookupKV_eq_none_iff]
  intro x hx hxk
  rcases List.mem_append.mp hx with hx1 | hx1
  · rcases List.mem_map.mp hx1 with ⟨p, hp, hpe⟩
    have hpk : p.1 = kk := by rw [← hxk, ← hpe]
    have := List.find?_eq_none.mp hf p hp
    simp only [decide_eq_true_eq] at this
    exact this (by rw [hpk, hfixkk])
  · have := mem_keys_of_mem (List.mem_of_mem_filter hx1)
    exact hpre (hxk ▸ this)

theorem addsFold (cdfHas : Str → Bool) (mA : List (Str × Str))
    (hinj : (mA.map Prod.fst).Pairwise
      (fun a b => convert_metadata_key a ≠ convert_metadata_key b)) :
    ∀ (suf pre : List (Str × Str)) (hc : Bool) (nm : Str) (d : Option Str) (errs : List Str),
      NodupKeys (pre ++ suf) →
      (∀ kk ∈ (pre ++ suf).map Prod.fst, convert_metadata_key kk = kk) →
      (∀ kk ∈ suf.map Prod.fst, pyReplace "/tags/values/".data [] kk = kk) →
      ∃ hc',
        (suf.filterMap (CDF2ADT.mkAddOp
            (mA.map (fun q => (convert_metadata_key q.1, q.2))))).foldl
          (ADT2CDF.applyAction cdfHas
            (mA.map (fun q => (convert_metadata_key q.1, ADT2CDF.MetadataConversion.mk q.2 q.1))))
          (hc, { name := nm, description := d, metadata := mdAddsResult mA pre }, errs)
        = (hc', { name := nm, description := d,
                  metadata := mdAddsResult mA (pre ++ suf) }, errs) := by
  intro suf
  induction suf with
  | nil =>
      intro pre hc nm d errs _ _ _
      exact ⟨hc, by rw [List.append_nil]; rfl⟩
  | cons e suf ih =>
      rcases e with ⟨kk, v⟩
      intro pre hc nm d errs hnd hfix hstrip
      have hkkmem : kk ∈ (pre ++ (kk, v) :: suf).map Prod.fst := by
        rw [List.map_append]
        exact List.mem_append.mpr (Or.inr (by simp))
      have hkkstrip : pyReplace "/tags/values/".data [] kk = kk := hstrip kk (by simp)
      have hkknotpre : ¬ kk ∈ pre.map Prod.fst := by
        have hnd' := hnd
        rw [NodupKeys, List.map_append, List.nodup_append] at hnd'
        intro hmem
        exact hnd'.2.2 hmem (by simp)
      have hassoc : (pre ++ [(kk, v)]) ++ suf = pre ++ (kk, v) :: suf := by
        rw [List.append_assoc]
        rfl
      have hnd2 : NodupKeys ((pre ++ [(kk, v)]) ++ suf) := by rw [hassoc]; exact hnd
      have hfix2 : ∀ q ∈ ((pre ++ [(kk, v)]) ++ suf).map Prod.fst,
          convert_metadata_key q = q := by rw [hassoc]; exact hfix
      have hstrip2 : ∀ q ∈ suf.map Prod.fst, pyReplace "/tags/values/".data [] q = q :=
        fun q hq => hstrip q (by simp [hq])
      have hfixpre : ∀ k ∈ pre.map Prod.fst, convert_metadata_key k = k :=
        fun k hk => hfix k (by rw [List.map_append]; exact List.mem_append.mpr (Or.inl hk))
      cases hlv : lookupKV (mA.map (fun q => (convert_metadata_key q.1, q.2))) kk with
      | some v2 =>
          by_cases hveq : v = v2
          · have hop : CDF2ADT.mkAddOp (mA.map (fun q => (convert_metadata_key q.1, q.2)))
                (kk, v) = none := by
              simp only [CDF2ADT.mkAddOp, hlv]
              rw [if_neg (by rw [hveq]; exact fun h => h rfl)]
            simp only [List.filterMap_cons, hop]
            have hlv' : lookupKV (mA.map (fun q => (convert_metadata_key q.1, q.2))) kk
                = some v := by rw [hlv, hveq]
            have hmd := mdAddsResult_step_skip mA pre hinj hlv'
            obtain ⟨hc', hrec⟩ := ih (pre ++ [(kk, v)]) hc nm d errs hnd2 hfix2 hstrip2
            refine ⟨hc', ?_⟩
            rw [← hmd, ← hassoc]
            exact hrec
          · have hop : CDF2ADT.mkAddOp (mA.map (fun q => (convert_metadata_key q.1, q.2))) (kk, v) = some { op := "replace".data, path := "/tags/values/".data ++ kk, value := v } := by
              simp only [CDF2ADT.mkAddOp, hlv]
              rw [if_pos hveq]
            simp only [List.filterMap_cons, hop]
            have hlvm := hlv
            rw [lookupKV_map_form] at hlvm
            rcases Option.map_eq_some'.mp hlvm with ⟨b, hfb, hb2⟩
            have hcm : lookupKV (mA.map (fun q =>
                (convert_metadata_key q.1, ADT2CDF.MetadataConversion.mk q.2 q.1))) kk
                = some (ADT2CDF.MetadataConversion.mk b.2 b.1) := by
              rw [lookupKV_map_form, hfb]
              rfl
            have hncv : ¬ b.2 = v := fun h => hveq (h.symm.trans hb2)
            have hcheck : ADT2CDF.check_value_change_and_update_record hc
                { name := nm, description := d, metadata := mdAddsResult mA pre }
                (mA.map (fun q =>
                  (convert_metadata_key q.1, ADT2CDF.MetadataConversion.mk q.2 q.1))) kk v
              = (true, { name := nm, description := d,
                         metadata := insertKV (mdAddsResult mA pre) b.1 v }) := by
              simp only [ADT2CDF.check_value_change_and_update_record, hcm]
              rw [if_pos hncv]
            rw [List.foldl_cons,
              applyAction_meta_addrep cdfHas _ hc _ errs _ v kk (Or.inl rfl) hkkstrip,
              hcheck, mdAddsResult_step_replace mA pre hinj hfb hkknotpre hfixpre]
            obtain ⟨hc', hrec⟩ := ih (pre ++ [(kk, v)]) true nm d errs hnd2 hfix2 hstrip2
            refine ⟨hc', ?_⟩
            rw [← hassoc]
            exact hrec
      | none =>
          have hop : CDF2ADT.mkAddOp (mA.map (fun q => (convert_metadata_key q.1, q.2))) (kk, v) = some { op := "add".data, path := "/tags/values/".data ++ kk, value := v } := by
            simp only [CDF2ADT.mkAddOp, hlv]
          simp only [List.filterMap_cons, hop]
          have hlvm := hlv
          rw [lookupKV_map_form] at hlvm
          have hf : mA.find? (fun q => convert_metadata_key q.1 = kk) = none :=
            Option.map_eq_none'.mp hlvm
          have hcm : lookupKV (mA.map (fun q =>
              (convert_metadata_key q.1, ADT2CDF.MetadataConversion.mk q.2 q.1))) kk
              = none := by
            rw [lookupKV_map_form, hf]
            rfl
          have hcont : containsKV (mdAddsResult mA pre) kk = false :=
            mdAddsResult_not_contains mA pre hf (hfix kk hkkmem) hkknotpre
          have hcheck : ADT2CDF.check_value_change_and_update_record hc
              { name := nm, description := d, metadata := mdAddsResult mA pre }
              (mA.map (fun q =>
                (convert_metadata_key q.1, ADT2CDF.MetadataConversion.mk q.2 q.1))) kk v
            = (true, { name := nm, description := d,
                       metadata := mdAddsResult mA pre ++ [(kk, v)] }) := by
            simp only [ADT2CDF.check_value_change_and_update_record, hcm]
            rw [insertKV_of_not_contains v hcont]
          rw [List.foldl_cons,
            applyAction_meta_addrep cdfHas _ hc _ errs _ v kk (Or.inr rfl) hkkstrip,
            hcheck, mdAddsResult_step_add mA pre hf hkknotpre]
          obtain ⟨hc', hrec⟩ := ih (pre ++ [(kk, v)]) true nm d errs hnd2 hfix2 hstrip2
          refine ⟨hc', ?_⟩
          rw [← hassoc]
          exact hrec

theorem removesFold (cdfHas : Str → Bool) (cm : List (Str × ADT2CDF.MetadataConversion))
    (cB : List (Str × Str)) :
    ∀ (ms : List (Str × Str)) (hc : Bool) (nm : Str) (d : Option Str) (errs : List Str)
      (md : List (Str × Str)),
      (∀ p ∈ ms, lookupKV cm (convert_metadata_key p.1)
          = some (ADT2CDF.MetadataConversion.mk p.2 p.1)) →
      (∀ p ∈ ms, pyReplace "/tags/values/".data [] (convert_metadata_key p.1)
          = convert_metadata_key p.1) →
      ∃ hc',
        (ms.filterMap (fun p => CDF2ADT.mkRemOp cB (convert_metadata_key p.1, p.2))).foldl
          (ADT2CDF.applyAction cdfHas cm)
          (hc, { name := nm, description := d, metadata := md }, errs)
        = (hc', { name := nm, description := d,
                  metadata := (ms.filterMap (fun p =>
                    if containsKV cB (convert_metadata_key p.1) then none
                    else some p.1)).foldl (fun acc k => eraseKV acc k) md }, errs) := by
  intro ms
  induction ms with
  | nil =>
      intro hc nm d errs md _ _
      exact ⟨hc, rfl⟩
  | cons p ms ih =>
      intro hc nm d errs md hcm hstrip
      have hcmp := hcm p (List.mem_cons_self _ _)
      have hstripp := hstrip p (List.mem_cons_self _ _)
      have hcm' : ∀ q ∈ ms, lookupKV cm (convert_metadata_key q.1)
          = some (ADT2CDF.MetadataConversion.mk q.2 q.1) :=
        fun q hq => hcm q (List.mem_cons_of_mem _ hq)
      have hstrip' : ∀ q ∈ ms, pyReplace "/tags/values/".data [] (convert_metadata_key q.1)
          = convert_metadata_key q.1 :=
        fun q hq => hstrip q (List.mem_cons_of_mem _ hq)
      by_cases hcb : containsKV cB (convert_metadata_key p.1) = true
      · have hop : CDF2ADT.mkRemOp cB (convert_metadata_key p.1, p.2) = none := by
          simp only [CDF2ADT.mkRemOp]
          rw [if_pos hcb]
        simp only [List.filterMap_cons, hop, if_pos hcb]
        exact ih hc nm d errs md hcm' hstrip'
      · have hop : CDF2ADT.mkRemOp cB (convert_metadata_key p.1, p.2) = some { op := "remove".data, path := "/tags/values/".data ++ convert_metadata_key p.1 } := by
          simp only [CDF2ADT.mkRemOp]
          rw [if_neg hcb]
        simp only [List.filterMap_cons, hop, if_neg hcb]
        rw [List.foldl_cons,
          applyAction_meta_remove cdfHas cm hc _ errs (convert_metadata_key p.1)
            (ADT2CDF.MetadataConversion.mk p.2 p.1) hstripp hcmp,
          List.foldl_cons]
        exact ih true nm d errs (eraseKV md p.1) hcm' hstrip'

theorem find?_key_image_at {f : Str → Str} {m : List (Str × β)}
    (h : (m.map Prod.fst).Pairwise (fun a b => f a ≠ f b)) {p : Str × β} {q : Str}
    (hp : p ∈ m) (hq : f p.1 = q) :
    m.find? (fun b => f b.1 = q) = some p := by
  subst hq
  exact find?_key_image h hp

theorem md_final_eq (mA mB : List (Str × Str)) :
    (mA.filterMap (fun p =>
        if containsKV (CDF2ADT.convert_metadata mB) (convert_metadata_key p.1) then none
        else some p.1)).foldl (fun acc k => eraseKV acc k)
      (mdAddsResult mA (CDF2ADT.convert_metadata mB))
    = (mA.filter (fun p =>
          containsKV (CDF2ADT.convert_metadata mB) (convert_metadata_key p.1))).map
        (fun p => (p.1,
          (lookupKV (CDF2ADT.convert_metadata mB) (convert_metadata_key p.1)).getD p.2))
      ++ (CDF2ADT.convert_metadata mB).filter (fun p =>
          ¬ containsKV (mA.map (fun q => (convert_metadata_key q.1, q.2))) p.1) := by
  have hfixB : ∀ k ∈ (CDF2ADT.convert_metadata mB).map Prod.fst, convert_metadata_key k = k :=
    fun k hk => keys_c2a_fixed mB hk
  rw [foldl_eraseKV_eq_filter, mdAddsResult, List.filter_append]
  congr 1
  · rw [filter_map_comm]
    refine congrArg _ (List.filter_congr ?_)
    intro p hpA
    by_cases hc1 : containsKV (CDF2ADT.convert_metadata mB) (convert_metadata_key p.1) = true
    · rw [hc1]
      have hnotmem : ¬ p.1 ∈ mA.filterMap (fun b =>
          if containsKV (CDF2ADT.convert_metadata mB) (convert_metadata_key b.1) then none
          else some b.1) := by
        intro hmem
        rcases List.mem_filterMap.mp hmem with ⟨b, _, hbe⟩
        by_cases hcb : containsKV (CDF2ADT.convert_metadata mB) (convert_metadata_key b.1) = true
        · rw [if_pos hcb] at hbe
          cases hbe
        · rw [if_neg hcb] at hbe
          have hb1 : b.1 = p.1 := by injection hbe
          rw [hb1, hc1] at hcb
          exact hcb rfl
      simp [hnotmem]
    · have hc1' : containsKV (CDF2ADT.convert_metadata mB) (convert_metadata_key p.1) = false := by
        revert hc1; cases containsKV (CDF2ADT.convert_metadata mB) (convert_metadata_key p.1) <;> simp
      rw [hc1']
      have hmem : p.1 ∈ mA.filterMap (fun b =>
          if containsKV (CDF2ADT.convert_metadata mB) (convert_metadata_key b.1) then none
          else some b.1) := by
        refine List.mem_filterMap.mpr ⟨p, hpA, ?_⟩
        rw [if_neg hc1]
      simp [hmem]
  · refine (List.filter_eq_self.mpr ?_)
    intro e he
    have hekeys : e.1 ∈ (CDF2ADT.convert_metadata mB).map Prod.fst :=
      mem_keys_of_mem (List.mem_of_mem_filter he)
    have hfix : convert_metadata_key e.1 = e.1 := hfixB e.1 hekeys
    have hnot : ¬ e.1 ∈ mA.filterMap (fun b =>
        if containsKV (CDF2ADT.convert_metadata mB) (convert_metadata_key b.1) then none
        else some b.1) := by
      intro hmem
      rcases List.mem_filterMap.mp hmem with ⟨b, _, hbe⟩
      by_cases hcb : containsKV (CDF2ADT.convert_metadata mB) (convert_metadata_key b.1) = true
      · rw [if_pos hcb] at hbe
        cases hbe
      · rw [if_neg hcb] at hbe
        have hb1 : b.1 = e.1 := by injection hbe
        rw [hb1, hfix] at hcb
        exact hcb ((containsKV_iff_mem_keys _ _).mpr hekeys)
    simp [hnot]

theorem md_final_lookup (mA mB : List (Str × Str))
    (hinj : (mA.map Prod.fst).Pairwise
      (fun a b => convert_metadata_key a ≠ convert_metadata_key b)) (q : Str) :
    lookupKV (CDF2ADT.convert_metadata
        ((mA.filter (fun p =>
            containsKV (CDF2ADT.convert_metadata mB) (convert_metadata_key p.1))).map
          (fun p => (p.1,
            (lookupKV (CDF2ADT.convert_metadata mB) (convert_metadata_key p.1)).getD p.2))
        ++ (CDF2ADT.convert_metadata mB).filter (fun p =>
            ¬ containsKV (mA.map (fun r => (convert_metadata_key r.1, r.2))) p.1))) q
      = lookupKV (CDF2ADT.convert_metadata mB) q := by
  have hndB : NodupKeys (CDF2ADT.convert_metadata mB) := NodupKeys_c2a mB
  have hfixB : ∀ k ∈ (CDF2ADT.convert_metadata mB).map Prod.fst, convert_metadata_key k = k :=
    fun k hk => keys_c2a_fixed mB hk
  have hpwL : (((mA.filter (fun p =>
        containsKV (CDF2ADT.convert_metadata mB) (convert_metadata_key p.1))).map
          (fun p => (p.1,
            (lookupKV (CDF2ADT.convert_metadata mB) (convert_metadata_key p.1)).getD p.2))).map
        Prod.fst).Pairwise
      (fun a b => convert_metadata_key a ≠ convert_metadata_key b) := by
    rw [List.map_map]
    have hsub : List.Sublist ((mA.filter (fun p =>
        containsKV (CDF2ADT.convert_metadata mB) (convert_metadata_key p.1))).map Prod.fst)
        (mA.map Prod.fst) :=
      List.Sublist.map _ (List.filter_sublist mA)
    exact List.Pairwise.sublist hsub hinj
  have hpwR : (((CDF2ADT.convert_metadata mB).filter (fun p =>
        ¬ containsKV (mA.map (fun r => (convert_metadata_key r.1, r.2))) p.1)).map
        Prod.fst).Pairwise
      (fun a b => convert_metadata_key a ≠ convert_metadata_key b) := by
    have hsub : List.Sublist (((CDF2ADT.convert_metadata mB).filter (fun p =>
        ¬ containsKV (mA.map (fun r => (convert_metadata_key r.1, r.2))) p.1)).map Prod.fst)
        ((CDF2ADT.convert_metadata mB).map Prod.fst) :=
      List.Sublist.map _ (List.filter_sublist _)
    have hnd1 := List.Nodup.sublist hsub hndB
    have hmapid : (((CDF2ADT.convert_metadata mB).filter (fun p =>
        ¬ containsKV (mA.map (fun r => (convert_metadata_key r.1, r.2))) p.1)).map
          Prod.fst).map convert_metadata_key
        = ((CDF2ADT.convert_metadata mB).filter (fun p =>
        ¬ containsKV (mA.map (fun r => (convert_metadata_key r.1, r.2))) p.1)).map Prod.fst :=
      (List.map_congr_left (fun k hk => hfixB k (hsub.subset hk))).trans (List.map_id _)
    have h2 : ((((CDF2ADT.convert_metadata mB).filter (fun p =>
        ¬ containsKV (mA.map (fun r => (convert_metadata_key r.1, r.2))) p.1)).map
          Prod.fst).map convert_metadata_key).Pairwise (fun a b => a ≠ b) := by
      rw [hmapid]
      exact hnd1
    exact List.pairwise_map.mp h2
  have hcross : ∀ a ∈ ((mA.filter (fun p =>
        containsKV (CDF2ADT.convert_metadata mB) (convert_metadata_key p.1))).map
          (fun p => (p.1,
            (lookupKV (CDF2ADT.convert_metadata mB) (convert_metadata_key p.1)).getD p.2))).map
        Prod.fst,
      ∀ b ∈ ((CDF2ADT.convert_metadata mB).filter (fun p =>
        ¬ containsKV (mA.map (fun r => (convert_metadata_key r.1, r.2))) p.1)).map Prod.fst,
      convert_metadata_key a ≠ convert_metadata_key b := by
    intro a ha b hb hab
    rw [List.map_map] at ha
    rcases List.mem_map.mp ha with ⟨p, hpf, hpa⟩
    rcases List.mem_map.mp hb with ⟨e, hef, heb⟩
    have hpA : p ∈ mA := List.mem_of_mem_filter hpf
    have hePred := (List.mem_filter.mp hef).2
    have hbfix : convert_metadata_key b = b :=
      hfixB b (heb ▸ mem_keys_of_mem (List.mem_of_mem_filter hef))
    have hcontains : containsKV (mA.map (fun r => (convert_metadata_key r.1, r.2))) b = true := by
      rw [containsKV, lookupKV_map_form]
      cases hfm : mA.find? (fun r => convert_metadata_key r.1 = b) with
      | none =>
          exfalso
          have h := List.find?_eq_none.mp hfm p hpA
          simp only [decide_eq_true_eq] at h
          apply h
          have hpa1 : p.1 = a := hpa
          rw [hpa1, hab, hbfix]
      | some bb => rfl
    simp only [decide_eq_true_eq] at hePred
    rw [heb] at hePred
    exact hePred hcontains
  have hpw2 : (((mA.filter (fun p =>
        containsKV (CDF2ADT.convert_metadata mB) (convert_metadata_key p.1))).map
          (fun p => (p.1,
            (lookupKV (CDF2ADT.convert_metadata mB) (convert_metadata_key p.1)).getD p.2))
        ++ (CDF2ADT.convert_metadata mB).filter (fun p =>
            ¬ containsKV (mA.map (fun r => (convert_metadata_key r.1, r.2))) p.1)).map
        Prod.fst).Pairwise
      (fun a b => convert_metadata_key a ≠ convert_metadata_key b) := by
    rw [List.map_append]
    exact List.pairwise_append.mpr ⟨hpwL, hpwR, hcross⟩
  rw [c2a_eq_map _ hpw2, lookupKV_map_form]
  cases hq : lookupKV (CDF2ADT.convert_metadata mB) q with
  | some w =>
      by_cases htv : containsKV (mA.map (fun r => (convert_metadata_key r.1, r.2))) q = true
      · rw [containsKV, lookupKV_map_form] at htv
        cases hfm : mA.find? (fun r => convert_metadata_key r.1 = q) with
        | none =>
            rw [hfm] at htv
            cases htv
        | some b =>
            have hbA : b ∈ mA := List.mem_of_find?_eq_some hfm
            have hbq : convert_metadata_key b.1 = q := by
              have h1 := List.find?_some hfm
              simpa using h1
            have hcont : containsKV (CDF2ADT.convert_metadata mB)
                (convert_metadata_key b.1) = true := by
              rw [hbq, containsKV, hq]
              rfl
            have he : (b.1, (lookupKV (CDF2ADT.convert_metadata mB)
                  (convert_metadata_key b.1)).getD b.2) ∈
                (mA.filter (fun p =>
                  containsKV (CDF2ADT.convert_metadata mB) (convert_metadata_key p.1))).map
                  (fun p => (p.1,
                    (lookupKV (CDF2ADT.convert_metadata mB)
                      (convert_metadata_key p.1)).getD p.2))
                ++ (CDF2ADT.convert_metadata mB).filter (fun p =>
                    ¬ containsKV (mA.map (fun r => (convert_metadata_key r.1, r.2))) p.1) :=
              List.mem_append.mpr (Or.inl
                (List.mem_map_of_mem _ (List.mem_filter.mpr ⟨hbA, hcont⟩)))
            rw [find?_key_image_at hpw2 he hbq]
            simp [hbq, hq]
      · have htv0 : containsKV (mA.map (fun r => (convert_metadata_key r.1, r.2))) q
            = false := by
          revert htv
          cases containsKV (mA.map (fun r => (convert_metadata_key r.1, r.2))) q <;> simp
        have hmw : (q, w) ∈ CDF2ADT.convert_metadata mB := lookupKV_mem hq
        have hqfix : convert_metadata_key q = q := hfixB q (mem_keys_of_mem hmw)
        have he : ((q, w) : Str × Str) ∈
            (mA.filter (fun p =>
              containsKV (CDF2ADT.convert_metadata mB) (convert_metadata_key p.1))).map
              (fun p => (p.1,
                (lookupKV (CDF2ADT.convert_metadata mB)
                  (convert_metadata_key p.1)).getD p.2))
            ++ (CDF2ADT.convert_metadata mB).filter (fun p =>
                ¬ containsKV (mA.map (fun r => (convert_metadata_key r.1, r.2))) p.1) :=
          List.mem_append.mpr (Or.inr (List.mem_filter.mpr ⟨hmw, by simp [htv0]⟩))
        rw [find?_key_image_at hpw2 he hqfix]
        rfl
  | none =>
      have hfind : ((mA.filter (fun p =>
            containsKV (CDF2ADT.convert_metadata mB) (convert_metadata_key p.1))).map
            (fun p => (p.1,
              (lookupKV (CDF2ADT.convert_metadata mB) (convert_metadata_key p.1)).getD p.2))
          ++ (CDF2ADT.convert_metadata mB).filter (fun p =>
              ¬ containsKV (mA.map (fun r => (convert_metadata_key r.1, r.2))) p.1)).find?
            (fun p => convert_metadata_key p.1 = q) = none := by
        refine List.find?_eq_none.mpr ?_
        intro e he hpred
        simp only [decide_eq_true_eq] at hpred
        rcases List.mem_append.mp he with h1 | h1
        · rcases List.mem_map.mp h1 with ⟨p, hpf, hpe⟩
          have hpc := (List.mem_filter.mp hpf).2
          have hpe1 : p.1 = e.1 := by rw [← hpe]
          rw [hpe1, hpred, containsKV, hq] at hpc
          cases hpc
        · have hefix : convert_metadata_key e.1 = e.1 :=
            hfixB e.1 (mem_keys_of_mem (List.mem_of_mem_filter h1))
          have heq : e.1 = q := by rw [← hefix, hpred]
          have : containsKV (CDF2ADT.convert_metadata mB) q = true :=
            (containsKV_iff_mem_keys _ _).mpr
              (heq ▸ mem_keys_of_mem (List.mem_of_mem_filter h1))
          rw [containsKV, hq] at this
          cases this
      rw [hfind]
      rfl

theorem descNorm_scalar (dA dB : Option Str) :
    descNorm (if truthy dB then dB else if truthy dA then some [] else dA) = descNorm dB := by
  by_cases hB : truthy dB = true
  · rw [if_pos hB]
  · rw [if_neg hB]
    by_cases hA : truthy dA = true
    · rw [if_pos hA, descNorm, descNorm, if_neg hB,
        if_neg (by decide : ¬ truthy (some ([] : Str)) = true)]
    · rw [if_neg hA, descNorm, descNorm, if_neg hA, if_neg hB]

theorem descFold (cdfHas : Str → Bool) (cm : List (Str × ADT2CDF.MetadataConversion))
    (hc : Bool) (nm : Str) (md : List (Str × Str)) (errs : List Str) (dA dB : Option Str) :
    ∃ hc', (pDescOps dB (if truthy dA then dA else none)).foldl
        (ADT2CDF.applyAction cdfHas cm)
        (hc, { name := nm, description := dA, metadata := md }, errs)
      = (hc', { name := nm,
                description := if truthy dB then dB else if truthy dA then some [] else dA,
                metadata := md }, errs) := by
  by_cases hB : truthy dB = true
  · cases dB with
    | none => cases hB
    | some bv =>
        rw [if_pos hB]
        by_cases hA : truthy dA = true
        · cases dA with
          | none => cases hA
          | some av =>
              by_cases hBA : (some bv : Option Str) = some av
              · have hops : pDescOps (some bv) (if truthy (some av) then some av else none)
                    = [] := by
                  rw [pDescOps.eq_def, if_neg (fun h => h hB), if_pos hA]
                  show (if ¬ (some bv : Option Str) = some av then ([{ op := "replace".data, path := "/description".data, value := (some bv : Option Str).getD [] }] : List PatchOp) else []) = []
                  rw [if_neg (fun h => h hBA)]
                rw [hops, hBA]
                exact ⟨hc, rfl⟩
              · have hops : pDescOps (some bv) (if truthy (some av) then some av else none)
                    = [{ op := "replace".data, path := "/description".data, value := (some bv : Option Str).getD [] }] := by
                  rw [pDescOps.eq_def, if_neg (fun h => h hB), if_pos hA]
                  show (if ¬ (some bv : Option Str) = some av then ([{ op := "replace".data, path := "/description".data, value := (some bv : Option Str).getD [] }] : List PatchOp) else []) = ([{ op := "replace".data, path := "/description".data, value := (some bv : Option Str).getD [] }] : List PatchOp)
                  rw [if_pos hBA]
                rw [hops, List.foldl_cons,
                  applyAction_desc_set cdfHas cm hc _ errs "replace".data _ (Or.inl rfl),
                  if_pos (show ¬ (some av : Option Str) = some ((some bv : Option Str).getD [])
                    from fun h => hBA h.symm)]
                exact ⟨true, rfl⟩
        · have hops : pDescOps (some bv) (if truthy dA then dA else none)
              = [{ op := "add".data, path := "/description".data, value := (some bv : Option Str).getD [] }] := by
            rw [pDescOps.eq_def, if_neg (fun h => h hB), if_neg hA]
          have hcond : ¬ dA = some ((some bv : Option Str).getD []) := by
            intro h
            rw [h] at hA
            exact hA hB
          rw [hops, List.foldl_cons,
            applyAction_desc_set cdfHas cm hc _ errs "add".data _ (Or.inr rfl),
            if_pos hcond]
          exact ⟨true, rfl⟩
  · rw [if_neg hB]
    by_cases hA : truthy dA = true
    · cases dA with
      | none => cases hA
      | some av =>
          have hops : pDescOps dB (if truthy (some av) then some av else none)
              = [{ op := "remove".data, path := "/description".data }] := by
            rw [pDescOps.eq_def, if_pos hB, if_pos hA]
          rw [hops, List.foldl_cons, applyAction_desc_remove cdfHas cm hc _ errs,
            if_pos hA, if_pos hA]
          exact ⟨true, rfl⟩
    · have hops : pDescOps dB (if truthy dA then dA else none) = [] := by
        rw [pDescOps.eq_def, if_pos hB, if_neg hA]
      rw [hops, if_neg hA]
      exact ⟨hc, rfl⟩

/-- C1 (amended): diff/apply round trip.  For resources A (current state,
already mirrored on the twin by get_twin_dict) and B (desired state) sharing
the immutable external and internal ids, applying the patch list
get_update_patches B (get_twin_dict A) to the CDF record of A with
fetch_changes_to_CDF_record reproduces B exactly on the name, up to
empty-versus-absent normalization on the description, and exactly on the
translated metadata map, provided no two metadata keys of A collide after
alphabet translation and no translated key of A or B contains the literal
substring /tags/values/ (stated as the translated keys being fixed points of
the path strip). -/
theorem C1_diff_apply_roundtrip (cdfHas : Str → Bool) (A B : CDF2ADT.Resource)
    (hext : A.external_id = B.external_id) (hid : A.internId = B.internId)
    (hinj : (A.metadata.map Prod.fst).Pairwise
      (fun a b => convert_metadata_key a ≠ convert_metadata_key b))
    (hsafe : ∀ k ∈ A.metadata.map Prod.fst ++ B.metadata.map Prod.fst,
      pyReplace "/tags/values/".data [] (convert_metadata_key k) = convert_metadata_key k) :
    ((ADT2CDF.fetch_changes_to_CDF_record cdfHas (cdfRecordOf A)
        (CDF2ADT.get_update_patches B (CDF2ADT.get_twin_dict A))).2.1.name = B.name)
    ∧ (descNorm (ADT2CDF.fetch_changes_to_CDF_record cdfHas (cdfRecordOf A)
        (CDF2ADT.get_update_patches B (CDF2ADT.get_twin_dict A))).2.1.description
      = descNorm B.description)
    ∧ (∀ q, lookupKV (CDF2ADT.convert_metadata
        (ADT2CDF.fetch_changes_to_CDF_record cdfHas (cdfRecordOf A)
          (CDF2ADT.get_update_patches B (CDF2ADT.get_twin_dict A))).2.1.metadata) q
      = lookupKV (CDF2ADT.convert_metadata B.metadata) q) := by
  suffices hfold : ∃ (hcF : Bool) (errsF : List Str) (mdF : List (Str × Str)),
      (ADT2CDF.fetch_changes_to_CDF_record cdfHas (cdfRecordOf A)
        (CDF2ADT.get_update_patches B (CDF2ADT.get_twin_dict A))
      = (hcF, { name := B.name,
                description := if truthy B.description then B.description
                               else if truthy A.description then some [] else A.description,
                metadata := mdF }, errsF))
      ∧ (∀ q, lookupKV (CDF2ADT.convert_metadata mdF) q
          = lookupKV (CDF2ADT.convert_metadata B.metadata) q) by
    obtain ⟨hcF, errsF, mdF, heq, hlook⟩ := hfold
    rw [heq]
    exact ⟨rfl, descNorm_scalar A.description B.description, hlook⟩
  have htvA := c2a_eq_map A.metadata hinj
  have hcmA := a2c_cm_eq_map A.metadata hinj
  have hfetch : ADT2CDF.fetch_changes_to_CDF_record cdfHas (cdfRecordOf A)
      (CDF2ADT.get_update_patches B (CDF2ADT.get_twin_dict A))
    = (CDF2ADT.get_update_patches B (CDF2ADT.get_twin_dict A)).foldl
        (ADT2CDF.applyAction cdfHas (ADT2CDF.convert_metadata A.metadata))
        (false, cdfRecordOf A, []) := rfl
  have hpatch : CDF2ADT.get_update_patches B (CDF2ADT.get_twin_dict A)
      = (if A.external_id = [] then [{ op := "replace".data, path := "/externalId".data, value := B.external_id }] else [])
        ++ (if natStr A.internId = [] then [{ op := "replace".data, path := "/id".data, value := natStr B.internId }] else [])
        ++ (if B.name ≠ A.name then [{ op := "replace".data, path := "/displayName".data, value := B.name }] else [])
        ++ pDescOps B.description (if truthy A.description then A.description else none)
        ++ (if CDF2ADT.dictEq (CDF2ADT.convert_metadata B.metadata) (CDF2ADT.convert_metadata A.metadata) then [] else (CDF2ADT.convert_metadata B.metadata).filterMap (CDF2ADT.mkAddOp (CDF2ADT.convert_metadata A.metadata)) ++ (CDF2ADT.convert_metadata A.metadata).filterMap (CDF2ADT.mkRemOp (CDF2ADT.convert_metadata B.metadata))) := by
    by_cases hAd : truthy A.description = true
    · cases hdA : A.description with
      | none =>
          rw [hdA] at hAd
          cases hAd
      | some dAv =>
          rw [hdA] at hAd
          have hif : (if truthy (some dAv) then (some dAv : Option Str) else none) = some dAv :=
            if_pos hAd
          have htwin : CDF2ADT.get_twin_dict A = { externalId := some A.external_id, idStr := some (natStr A.internId), displayName := some A.name, description := some dAv, tagsValues := some (CDF2ADT.convert_metadata A.metadata) } := by
            rw [CDF2ADT.get_twin_dict, hdA, hif]
          rw [htwin, hif]
          rfl
    · have hif : (if truthy A.description then A.description else none) = none :=
        if_neg hAd
      have htwin : CDF2ADT.get_twin_dict A = { externalId := some A.external_id, idStr := some (natStr A.internId), displayName := some A.name, description := none, tagsValues := some (CDF2ADT.convert_metadata A.metadata) } := by
        rw [CDF2ADT.get_twin_dict, hif]
      rw [htwin, hif]
      rfl
  have hseg1 : ∀ (hc : Bool) (r : ADT2CDF.Rec) (errs : List Str), ∃ e,
      List.foldl (ADT2CDF.applyAction cdfHas (A.metadata.map (fun p =>
          (convert_metadata_key p.1, ADT2CDF.MetadataConversion.mk p.2 p.1)))) (hc, r, errs)
        (if A.external_id = [] then [{ op := "replace".data, path := "/externalId".data, value := B.external_id }] else [])
      = (hc, r, errs ++ e) := by
    intro hc r errs
    by_cases hE : A.external_id = []
    · rw [if_pos hE]
      obtain ⟨e, he⟩ := applyAction_externalId cdfHas (A.metadata.map (fun p =>
        (convert_metadata_key p.1, ADT2CDF.MetadataConversion.mk p.2 p.1))) hc r errs
        "replace".data B.external_id
      exact ⟨e, by rw [List.foldl_cons, he]; rfl⟩
    · rw [if_neg hE]
      exact ⟨[], by rw [List.append_nil]; rfl⟩
  have hseg2 : ∀ (hc : Bool) (r : ADT2CDF.Rec) (errs : List Str), ∃ e,
      List.foldl (ADT2CDF.applyAction cdfHas (A.metadata.map (fun p =>
          (convert_metadata_key p.1, ADT2CDF.MetadataConversion.mk p.2 p.1)))) (hc, r, errs)
        (if natStr A.internId = [] then [{ op := "replace".data, path := "/id".data, value := natStr B.internId }] else [])
      = (hc, r, errs ++ e) := by
    intro hc r errs
    by_cases hI : natStr A.internId = []
    · rw [if_pos hI]
      obtain ⟨e, he⟩ := applyAction_id cdfHas (A.metadata.map (fun p =>
        (convert_metadata_key p.1, ADT2CDF.MetadataConversion.mk p.2 p.1))) hc r errs
        "replace".data (natStr B.internId)
      exact ⟨e, by rw [List.foldl_cons, he]; rfl⟩
    · rw [if_neg hI]
      exact ⟨[], by rw [List.append_nil]; rfl⟩
  have hseg3 : ∀ (hc : Bool) (errs : List Str), ∃ hc',
      List.foldl (ADT2CDF.applyAction cdfHas (A.metadata.map (fun p =>
          (convert_metadata_key p.1, ADT2CDF.MetadataConversion.mk p.2 p.1))))
        (hc, cdfRecordOf A, errs)
        (if B.name ≠ A.name then [{ op := "replace".data, path := "/displayName".data, value := B.name }] else [])
      = (hc', { name := B.name, description := A.description, metadata := A.metadata }, errs) := by
    intro hc errs
    by_cases hN : B.name ≠ A.name
    · rw [if_pos hN, List.foldl_cons,
        applyAction_displayName cdfHas (A.metadata.map (fun p =>
          (convert_metadata_key p.1, ADT2CDF.MetadataConversion.mk p.2 p.1))) hc
          (cdfRecordOf A) errs B.name,
        if_pos (show ¬ (cdfRecordOf A).name = B.name from fun h => hN h.symm)]
      exact ⟨true, rfl⟩
    · rw [if_neg hN]
      have hN' : B.name = A.name := not_not.mp hN
      exact ⟨hc, by rw [hN']; rfl⟩
  rw [hfetch, hpatch, hcmA, htvA,
    List.foldl_append, List.foldl_append, List.foldl_append, List.foldl_append]
  obtain ⟨e1, h1⟩ := hseg1 false (cdfRecordOf A) []
  rw [h1, List.nil_append]
  obtain ⟨e2, h2⟩ := hseg2 false (cdfRecordOf A) e1
  rw [h2]
  obtain ⟨hc3, h3⟩ := hseg3 false (e1 ++ e2)
  rw [h3]
  obtain ⟨hc4, h4⟩ := descFold cdfHas (A.metadata.map (fun p =>
      (convert_metadata_key p.1, ADT2CDF.MetadataConversion.mk p.2 p.1))) hc3 B.name
    A.metadata (e1 ++ e2) A.description B.description
  rw [h4]
  by_cases hDE : CDF2ADT.dictEq (CDF2ADT.convert_metadata B.metadata)
      (A.metadata.map (fun p => (convert_metadata_key p.1, p.2))) = true
  · rw [if_pos hDE]
    refine ⟨hc4, e1 ++ e2, A.metadata, rfl, ?_⟩
    intro q
    rw [htvA]
    exact (dictEq_lookupKV hDE q).symm
  · rw [if_neg hDE, List.foldl_append]
    have hnd0 : NodupKeys (([] : List (Str × Str)) ++ CDF2ADT.convert_metadata B.metadata) :=
      NodupKeys_c2a B.metadata
    have hfix0 : ∀ kk ∈ ((([] : List (Str × Str)) ++ CDF2ADT.convert_metadata B.metadata)).map
        Prod.fst, convert_metadata_key kk = kk :=
      fun kk hk => keys_c2a_fixed B.metadata hk
    have hstrip0 : ∀ kk ∈ (CDF2ADT.convert_metadata B.metadata).map Prod.fst,
        pyReplace "/tags/values/".data [] kk = kk := by
      intro kk hk
      rcases mem_keys_foldc (fun p => p.2) B.metadata hk with ⟨k, hkmem, hke⟩
      rw [hke]
      exact hsafe k (List.mem_append.mpr (Or.inr hkmem))
    obtain ⟨hc5, h5⟩ := addsFold cdfHas A.metadata hinj (CDF2ADT.convert_metadata B.metadata)
      [] hc4 B.name
      (if truthy B.description then B.description else if truthy A.description then some [] else A.description)
      (e1 ++ e2) hnd0 hfix0 hstrip0
    rw [mdAddsResult_nil, List.nil_append] at h5
    rw [h5]
    have hfm2 : (A.metadata.map (fun p => (convert_metadata_key p.1, p.2))).filterMap
        (CDF2ADT.mkRemOp (CDF2ADT.convert_metadata B.metadata))
        = A.metadata.filterMap (fun p => CDF2ADT.mkRemOp (CDF2ADT.convert_metadata B.metadata)
            (convert_metadata_key p.1, p.2)) := by
      rw [List.filterMap_map]
      rfl
    rw [hfm2]
    have hcmr : ∀ p ∈ A.metadata, lookupKV (A.metadata.map (fun q =>
        (convert_metadata_key q.1, ADT2CDF.MetadataConversion.mk q.2 q.1)))
        (convert_metadata_key p.1) = some (ADT2CDF.MetadataConversion.mk p.2 p.1) := by
      intro p hp
      rw [lookupKV_map_form, find?_key_image hinj hp]
      rfl
    have hstripr : ∀ p ∈ A.metadata, pyReplace "/tags/values/".data []
        (convert_metadata_key p.1) = convert_metadata_key p.1 :=
      fun p hp => hsafe p.1 (List.mem_append.mpr (Or.inl (mem_keys_of_mem hp)))
    obtain ⟨hc6, h6⟩ := removesFold cdfHas
      (A.metadata.map (fun q => (convert_metadata_key q.1, ADT2CDF.MetadataConversion.mk q.2 q.1)))
      (CDF2ADT.convert_metadata B.metadata) A.metadata hc5 B.name
      (if truthy B.description then B.description else if truthy A.description then some [] else A.description)
      (e1 ++ e2) (mdAddsResult A.metadata (CDF2ADT.convert_metadata B.metadata))
      hcmr hstripr
    rw [h6]
    refine ⟨hc6, e1 ++ e2, _, rfl, ?_⟩
    intro q
    rw [md_final_eq A.metadata B.metadata]
    exact md_final_lookup A.metadata B.metadata hinj q

theorem C1_diff_apply_roundtrip_witness :
    (rtA.external_id = rtB.external_id) ∧ (rtA.internId = rtB.internId) ∧
    ((rtA.metadata.map Prod.fst).Pairwise
      (fun a b => convert_metadata_key a ≠ convert_metadata_key b)) ∧
    (∀ k ∈ rtA.metadata.map Prod.fst ++ rtB.metadata.map Prod.fst,
      pyReplace "/tags/values/".data [] (convert_metadata_key k) = convert_metadata_key k) ∧
    (((ADT2CDF.fetch_changes_to_CDF_record (fun _ => true) (cdfRecordOf rtA)
        (CDF2ADT.get_update_patches rtB (CDF2ADT.get_twin_dict rtA))).2.1.name = rtB.name)
    ∧ (descNorm (ADT2CDF.fetch_changes_to_CDF_record (fun _ => true) (cdfRecordOf rtA)
        (CDF2ADT.get_update_patches rtB (CDF2ADT.get_twin_dict rtA))).2.1.description
      = descNorm rtB.description)
    ∧ (∀ q, lookupKV (CDF2ADT.convert_metadata
        (ADT2CDF.fetch_changes_to_CDF_record (fun _ => true) (cdfRecordOf rtA)
          (CDF2ADT.get_update_patches rtB (CDF2ADT.get_twin_dict rtA))).2.1.metadata) q
      = lookupKV (CDF2ADT.convert_metadata rtB.metadata) q)) :=
  ⟨by decide, by decide, by decide, by decide,
    C1_diff_apply_roundtrip (fun _ => true) rtA rtB (by decide) (by decide) (by decide)
      (by decide)⟩

end Lemmas

end CdfSync
